import Mathlib

/-
Verification of the log-reconciliation and aggregation core of sang-stats.py
(repository Hovborg/mine-sange).

The Python script is shallowly embedded below.  Conventions of the embedding:

* Python strings are Lean Strings; character-level work is done on the
  underlying character lists (Python indexes/slices strings by code point,
  which matches List Char operations).
* Python floats that only ever hold sums and quotients of parsed decimal
  log values are modelled as exact fractions (Frac below); Python
  round(x, 1) (banker's rounding) is modelled exactly on them.
* Python dicts are association lists that keep insertion order (first
  binding position is preserved on update, new keys go to the end), which
  is Python's documented dict behaviour.  Python sets are modelled as
  duplicate-free lists in first-seen order; the script's observable
  behaviour does not depend on set iteration order.
* The nginx access-log regular expression (LOG_PATTERN) is treated as the
  input boundary: the primary log is given as the list of records matched
  by it (lines that do not match are silently skipped by the code).  All
  pipe-delimited parsing of the heartbeat log (np.log) and track log is
  modelled on raw line strings, as in the source.
* File existence, the external user_agents library, and the ip-api.com
  transport are inputs: a missing file is None, the UA library is an
  optional classification function, and the geolocation service is a
  function from a batch of IPs to an optional response list (None models a
  transport error / timeout, which the code catches and turns into break).
-/

/-! Character and string utilities mirroring the Python primitives used. -/

/-- Characters Python's str.strip() removes (ASCII whitespace). -/
def isPySpace (c : Char) : Bool :=
  c = ' ' ∨ c = '\t' ∨ c = '\n' ∨ c = '\r' ∨ c = '\x0b' ∨ c = '\x0c'

/-- Python str.strip(): drop leading and trailing whitespace. -/
def pyStripChars (cs : List Char) : List Char :=
  ((cs.dropWhile isPySpace).reverse.dropWhile isPySpace).reverse

/-- Python str.strip() on a String. -/
def pyStrip (s : String) : String :=
  String.mk (pyStripChars s.toList)

/-- Python single-character str.split(sep): split at every occurrence,
keeping empty pieces. -/
def pySplitChar (sep : Char) : List Char → List (List Char)
  | [] => [[]]
  | c :: cs =>
    match pySplitChar sep cs with
    | [] => [[c]]
    | g :: gs => if c = sep then [] :: g :: gs else (c :: g) :: gs

/-- Python s.split(sep) returning Strings. -/
def pySplit (sep : Char) (s : String) : List String :=
  (pySplitChar sep s.toList).map String.mk

/-- Boolean prefix test on character lists. -/
def isPrefixOfChars : List Char → List Char → Bool
  | [], _ => true
  | _ :: _, [] => false
  | a :: as, b :: bs => a = b && isPrefixOfChars as bs

/-- Python s.startswith(p). -/
def pyStartsWith (s p : String) : Bool :=
  isPrefixOfChars p.toList s.toList

/-- Substring containment on character lists (Python "p in s"). -/
def containsSubChars (pat : List Char) : List Char → Bool
  | [] => isPrefixOfChars pat []
  | c :: cs => isPrefixOfChars pat (c :: cs) || containsSubChars pat cs

/-- Python "p in s" for strings. -/
def pyContains (s p : String) : Bool :=
  containsSubChars p.toList s.toList

/-- ASCII lower-casing of one character (the bot patterns are ASCII, so
re.IGNORECASE matching reduces to ASCII case folding). -/
def asciiLower (c : Char) : Char :=
  if 'A' ≤ c ∧ c ≤ 'Z' then Char.ofNat (c.toNat + 32) else c

/-- Python s[a:b] slicing by code points. -/
def strSlice (s : String) (a b : Nat) : String :=
  String.mk ((s.toList.drop a).take (b - a))

/-- Python s[:n]. -/
def strTake (s : String) (n : Nat) : String :=
  String.mk (s.toList.take n)

/-- Value of a decimal digit character. -/
def digitVal (c : Char) : Nat := c.toNat - 48

/-- Interpret a non-empty all-digit character list as a natural number. -/
def digitsToNat (cs : List Char) : Option Nat :=
  if cs ≠ [] ∧ cs.all Char.isDigit then
    some (cs.foldl (fun acc c => 10 * acc + digitVal c) 0)
  else none

/-- Python int(str): optional surrounding whitespace, optional sign,
then decimal digits.  (Underscore digit grouping is not used in these logs
and is not modelled.) -/
def pyInt (s : String) : Option Int :=
  match pyStripChars s.toList with
  | '+' :: rest => (digitsToNat rest).map Int.ofNat
  | '-' :: rest => (digitsToNat rest).map (fun n => -(n : Int))
  | cs => (digitsToNat cs).map Int.ofNat

/-- An exact fraction with positive denominator, modelling the float
values this script computes: all of them are sums and quotients of parsed
decimal log values, which stay exact.  Kept unnormalized so that all
arithmetic is plain integer arithmetic. -/
structure Frac where
  num : Int
  den : Nat
deriving DecidableEq, Repr, Inhabited

/-- Value comparison a < b of fractions (denominators are positive
throughout this development). -/
def fracLt (a b : Frac) : Bool :=
  a.num * (b.den : Int) < b.num * (a.den : Int)

/-- Value comparison a ≤ b of fractions. -/
def fracLe (a b : Frac) : Bool :=
  a.num * (b.den : Int) ≤ b.num * (a.den : Int)

/-- Exact fraction addition. -/
def fracAdd (a b : Frac) : Frac :=
  ⟨a.num * (b.den : Int) + b.num * (a.den : Int), a.den * b.den⟩

/-- Division of a fraction by a positive natural constant. -/
def fracDivN (a : Frac) (c : Nat) : Frac := ⟨a.num, a.den * c⟩

/-- A whole number as a fraction. -/
def fracOfNat (n : Nat) : Frac := ⟨(n : Int), 1⟩

/-- Python float(str) restricted to the plain decimal forms that occur in
these logs: optional sign, digits, optional fractional part.  The result is
the exact value. -/
def pyFloat (s : String) : Option Frac :=
  let core : List Char → Option Frac := fun cs =>
    match pySplitChar '.' cs with
    | [intPart] => (digitsToNat intPart).map (fun n => (⟨(n : Int), 1⟩ : Frac))
    | [intPart, fracPart] =>
      (digitsToNat (intPart ++ fracPart)).map
        (fun n => (⟨(n : Int), 10 ^ fracPart.length⟩ : Frac))
    | _ => none
  match pyStripChars s.toList with
  | '+' :: rest => core rest
  | '-' :: rest => (core rest).map (fun f => ⟨-f.num, f.den⟩)
  | cs => core cs

/-- Python round(q, 1) on an exact value: round to the nearest tenth, ties
to even (banker's rounding, as Python's round does on exact halves).  The
result always has denominator 10. -/
def pyRound1 (q : Frac) : Frac :=
  let xn : Int := q.num * 10
  let n : Int := xn.fdiv (q.den : Int)
  let r : Int := xn - n * (q.den : Int)
  if 2 * r < (q.den : Int) then ⟨n, 10⟩
  else if 2 * r > (q.den : Int) then ⟨n + 1, 10⟩
  else if n % 2 = 0 then ⟨n, 10⟩ else ⟨n + 1, 10⟩

/-! Insertion-ordered association lists modelling Python dicts, and
duplicate-free lists modelling Python sets. -/

/-- Dict lookup (None when absent). -/
def alGet {κ β : Type} [DecidableEq κ] : List (κ × β) → κ → Option β
  | [], _ => none
  | (k, v) :: t, q => if k = q then some v else alGet t q

/-- Dict lookup with default (Python dict.get(k, d)). -/
def alGetD {κ β : Type} [DecidableEq κ] (l : List (κ × β)) (k : κ) (d : β) : β :=
  (alGet l k).getD d

/-- Dict assignment d[k] = v: update in place, or append a new binding. -/
def alSet {κ β : Type} [DecidableEq κ] : List (κ × β) → κ → β → List (κ × β)
  | [], k, v => [(k, v)]
  | (k', v') :: t, k, v => if k' = k then (k, v) :: t else (k', v') :: alSet t k v

/-- defaultdict(int) counter increment d[k] += 1. -/
def bump {κ : Type} [DecidableEq κ] : List (κ × Nat) → κ → List (κ × Nat)
  | [], k => [(k, 1)]
  | (k', v) :: t, k => if k' = k then (k', v + 1) :: t else (k', v) :: bump t k

/-- defaultdict(int) counter increment by n, d[k] += n. -/
def bumpBy {κ : Type} [DecidableEq κ] : List (κ × Nat) → κ → Nat → List (κ × Nat)
  | [], k, n => [(k, n)]
  | (k', v) :: t, k, n => if k' = k then (k', v + n) :: t else (k', v) :: bumpBy t k n

/-- defaultdict(float) accumulator d[k] += q (missing keys start at 0). -/
def alAddQ : List (String × Frac) → String → Frac → List (String × Frac)
  | [], k, q => [(k, q)]
  | (k', v) :: t, k, q => if k' = k then (k', fracAdd v q) :: t else (k', v) :: alAddQ t k q

/-- Set insertion (set.add), keeping first-seen order. -/
def insertSet {α : Type} [DecidableEq α] (a : α) (l : List α) : List α :=
  if a ∈ l then l else l ++ [a]

/-- Set union a | b as a first-seen-ordered duplicate-free list. -/
def unionList {α : Type} [DecidableEq α] (a b : List α) : List α :=
  b.foldl (fun acc x => insertSet x acc) a

/-- Stable insertion of one element: it goes before the first element it
compares le-true against, so a stable sort results. -/
def insSorted {α : Type} (le : α → α → Bool) (a : α) : List α → List α
  | [] => [a]
  | b :: bs => if le a b then a :: b :: bs else b :: insSorted le a bs

/-- Stable sort (models Python sorted(), which is stable; with a
greater-or-equal test it models sorted(reverse=True), which also keeps
equal elements in original order). -/
def sortByStable {α : Type} (le : α → α → Bool) (l : List α) : List α :=
  l.foldr (insSorted le) []

/-- The batch slicing new_ips[i:i+100] of the geolocation loop: chunks of
at most 100 elements, in order.  Fuel-structured so it evaluates in the
kernel. -/
def chunksAux {α : Type} : Nat → List α → List (List α)
  | 0, _ => []
  | _, [] => []
  | fuel + 1, x :: xs => (x :: xs.take 99) :: chunksAux fuel (xs.drop 99)

/-- All batches of up to 100 IPs, in list order. -/
def chunks100 {α : Type} (l : List α) : List (List α) :=
  chunksAux l.length l

/-! Naive datetimes: the script works with timezone-stripped (naive UTC)
Python datetimes at microsecond precision. -/

/-- A naive Python datetime (what remains after ts.replace(tzinfo=None)). -/
structure DateTime where
  year : Nat
  month : Nat
  day : Nat
  hour : Nat
  minute : Nat
  second : Nat
  micro : Nat
deriving DecidableEq, Repr, Inhabited

/-- Gregorian leap-year rule, as implemented by Python's datetime. -/
def isLeapYear (y : Nat) : Bool :=
  (y % 4 = 0 ∧ y % 100 ≠ 0) ∨ y % 400 = 0

/-- Days in a month of a given year. -/
def daysInMonth (y m : Nat) : Nat :=
  if m = 2 then (if isLeapYear y then 29 else 28)
  else if m = 4 ∨ m = 6 ∨ m = 9 ∨ m = 11 then 30
  else 31

/-- Leap days in years 1..y. -/
def leapCount (y : Nat) : Nat := y / 4 - y / 100 + y / 400

/-- Days before January 1st of year y (counting from year 1), as in
Python's date.toordinal. -/
def daysBeforeYear (y : Nat) : Nat := 365 * (y - 1) + leapCount (y - 1)

/-- Days in months 1..(m-1) of year y. -/
def daysBeforeMonth (y m : Nat) : Nat :=
  ((List.range (m - 1)).map (fun i => daysInMonth y (i + 1))).sum

/-- Proleptic-Gregorian ordinal day of a datetime's date. -/
def toOrdinalDay (dt : DateTime) : Nat :=
  daysBeforeYear dt.year + daysBeforeMonth dt.year dt.month + (dt.day - 1)

/-- Microseconds on an absolute axis; datetime subtraction
(a - b).total_seconds() compares exactly as epochMicro a - epochMicro b
in units of 1e-6 s. -/
def epochMicro (dt : DateTime) : Int :=
  ((toOrdinalDay dt * 86400 + dt.hour * 3600 + dt.minute * 60 + dt.second : Nat) : Int)
    * 1000000 + (dt.micro : Int)

/-- Decimal digit character. -/
def digitChar (n : Nat) : Char := Char.ofNat (48 + n % 10)

/-- Two-digit zero-padded print. -/
def pad2 (n : Nat) : List Char := [digitChar (n / 10), digitChar n]

/-- Four-digit zero-padded print. -/
def pad4 (n : Nat) : List Char :=
  [digitChar (n / 1000), digitChar (n / 100), digitChar (n / 10), digitChar n]

/-- Six-digit zero-padded print. -/
def pad6 (n : Nat) : List Char :=
  [digitChar (n / 100000), digitChar (n / 10000), digitChar (n / 1000),
   digitChar (n / 100), digitChar (n / 10), digitChar n]

/-- Python datetime.isoformat() on a naive datetime: YYYY-MM-DDTHH:MM:SS,
with a .ffffff fraction only when microseconds are non-zero. -/
def isoChars (dt : DateTime) : List Char :=
  pad4 dt.year ++ '-' :: pad2 dt.month ++ '-' :: pad2 dt.day
    ++ 'T' :: pad2 dt.hour ++ ':' :: pad2 dt.minute ++ ':' :: pad2 dt.second
    ++ (if dt.micro = 0 then [] else '.' :: pad6 dt.micro)

/-- dt.isoformat() + 'Z', the timestamp string format used downstream. -/
def toIsoZ (dt : DateTime) : String :=
  String.mk (isoChars dt) ++ "Z"

/-! The nginx timestamp parser: parse_time uses
datetime.strptime(time_str.split(' ')[0], '%d/%b/%Y:%H:%M:%S'). -/

/-- Month number of a %b abbreviation (strptime matches these
case-insensitively in the C locale). -/
def monthNum (s : List Char) : Option Nat :=
  match String.mk (s.map asciiLower) with
  | "jan" => some 1 | "feb" => some 2 | "mar" => some 3 | "apr" => some 4
  | "may" => some 5 | "jun" => some 6 | "jul" => some 7 | "aug" => some 8
  | "sep" => some 9 | "oct" => some 10 | "nov" => some 11 | "dec" => some 12
  | _ => none

/-- A 1-or-2-digit numeric field of strptime (%d, %H, %M, %S). -/
def twoDigitField (cs : List Char) : Option Nat :=
  if cs.length = 1 ∨ cs.length = 2 then digitsToNat cs else none

/-- datetime.strptime(s, '%d/%b/%Y:%H:%M:%S'): day/Mon/Year:H:M:S with a
4-digit year, valid calendar date, and in-range time fields.  None models
the ValueError the script catches. -/
def strptimeNginx (s : String) : Option DateTime :=
  match pySplitChar '/' s.toList with
  | [dayCs, monCs, rest] =>
    match pySplitChar ':' rest with
    | [yearCs, hourCs, minCs, secCs] =>
      match twoDigitField dayCs, monthNum monCs, digitsToNat yearCs,
            twoDigitField hourCs, twoDigitField minCs, twoDigitField secCs with
      | some d, some mo, some y, some h, some mi, some sec =>
        if yearCs.length = 4 ∧ 1 ≤ y ∧ 1 ≤ d ∧ d ≤ daysInMonth y mo
            ∧ h ≤ 23 ∧ mi ≤ 59 ∧ sec ≤ 59 then
          some ⟨y, mo, d, h, mi, sec, 0⟩
        else none
      | _, _, _, _, _, _ => none
    | _ => none
  | _ => none

/-- time_str.split(' ')[0]: the part before the first space (drops the
numeric zone field of the bracketed nginx timestamp). -/
def splitFirstSpace (s : String) : String :=
  String.mk (s.toList.takeWhile (fun c => c ≠ ' '))

/-- parse_time from the source: on success the naive ISO string plus 'Z',
on any parse failure the raw time string is returned unchanged. -/
def parse_time (time_str : String) : String :=
  match strptimeNginx (splitFirstSpace time_str) with
  | some dt => toIsoZ dt
  | none => time_str

/-! The ISO timestamp parser used for np.log and track.log lines:
datetime.fromisoformat(time_str.replace('Z', '+00:00')).replace(tzinfo=None). -/

/-- str.replace('Z', '+00:00'): the needle is a single character, so the
replacement is applied to each 'Z' independently. -/
def zToOffset : List Char → List Char
  | [] => []
  | c :: cs =>
    if c = 'Z' then '+' :: '0' :: '0' :: ':' :: '0' :: '0' :: zToOffset cs
    else c :: zToOffset cs

/-- Parse the optional trailing UTC-offset part ±HH:MM of an ISO string.
Returns true when the remainder is a well-formed (possibly empty) offset;
the offset value itself is discarded by .replace(tzinfo=None). -/
def isoOffsetOk : List Char → Bool
  | [] => true
  | sign :: o1 :: o2 :: ':' :: o3 :: o4 :: [] =>
    (sign = '+' ∨ sign = '-') ∧ o1.isDigit ∧ o2.isDigit ∧ o3.isDigit ∧ o4.isDigit
      ∧ 10 * digitVal o1 + digitVal o2 ≤ 23 ∧ 10 * digitVal o3 + digitVal o4 ≤ 59
  | _ => false

/-- Parse the fractional-seconds-and-offset tail: an optional '.' followed
by 1 to 6 digits, then an optional offset. -/
def isoFracOffset (cs : List Char) : Option Nat :=
  match cs with
  | '.' :: rest =>
    let ds := rest.takeWhile Char.isDigit
    let rest' := rest.dropWhile Char.isDigit
    if 1 ≤ ds.length ∧ ds.length ≤ 6 ∧ isoOffsetOk rest' then
      (digitsToNat ds).map (fun n => n * 10 ^ (6 - ds.length))
    else none
  | _ => if isoOffsetOk cs then some 0 else none

/-- Parse the time-of-day part HH[:MM[:SS[.ffffff]]][±HH:MM] of an ISO
string, as datetime.fromisoformat accepts. -/
def isoTimePart (cs : List Char) : Option (Nat × Nat × Nat × Nat) :=
  match cs with
  | h1 :: h2 :: rest =>
    if h1.isDigit ∧ h2.isDigit then
      let h := 10 * digitVal h1 + digitVal h2
      if h ≤ 23 then
        match rest with
        | ':' :: m1 :: m2 :: rest2 =>
          if m1.isDigit ∧ m2.isDigit then
            let mi := 10 * digitVal m1 + digitVal m2
            if mi ≤ 59 then
              match rest2 with
              | ':' :: s1 :: s2 :: rest3 =>
                if s1.isDigit ∧ s2.isDigit then
                  let sec := 10 * digitVal s1 + digitVal s2
                  if sec ≤ 59 then
                    (isoFracOffset rest3).map (fun mic => (h, mi, sec, mic))
                  else none
                else none
              | _ => if isoOffsetOk rest2 then some (h, mi, 0, 0) else none
            else none
          else none
        | _ => if isoOffsetOk rest then some (h, 0, 0, 0) else none
      else none
    else none
  | _ => none

/-- The character-level body of fromisoformat: YYYY-MM-DD, then optionally
a single separator character and a time part.  The validated UTC offset is
dropped, yielding the wall-clock (naive) datetime, exactly what
.replace(tzinfo=None) leaves. -/
def parseIsoChars (cs : List Char) : Option DateTime :=
  match cs with
  | y1 :: y2 :: y3 :: y4 :: c1 :: mo1 :: mo2 :: c2 :: d1 :: d2 :: rest =>
    if y1.isDigit ∧ y2.isDigit ∧ y3.isDigit ∧ y4.isDigit ∧ c1 = '-'
        ∧ mo1.isDigit ∧ mo2.isDigit ∧ c2 = '-' ∧ d1.isDigit ∧ d2.isDigit then
      let y := 1000 * digitVal y1 + 100 * digitVal y2 + 10 * digitVal y3 + digitVal y4
      let mo := 10 * digitVal mo1 + digitVal mo2
      let d := 10 * digitVal d1 + digitVal d2
      if 1 ≤ y ∧ 1 ≤ mo ∧ mo ≤ 12 ∧ 1 ≤ d ∧ d ≤ daysInMonth y mo then
        match rest with
        | [] => some ⟨y, mo, d, 0, 0, 0, 0⟩
        | _ :: t => (isoTimePart t).map (fun (h, mi, sec, mic) => ⟨y, mo, d, h, mi, sec, mic⟩)
      else none
    else none
  | _ => none

/-- datetime.fromisoformat(s.replace('Z', '+00:00')).replace(tzinfo=None)
(the preceding .replace('+00:00', '+00:00') in the np.log branch is an
identity and is omitted).  None models the caught ValueError. -/
def fromisoformatNaiveUTC (s : String) : Option DateTime :=
  parseIsoChars (zToOffset s.toList)

/-! Domain constants and helpers of sang-stats.py. -/

/-- VALID_SONGS: whitelist of song identifiers accepted from track events. -/
def VALID_SONGS : List String :=
  ["bare-en-far", "kristoffer", "kokosnoed", "mine-drenge",
   "fars-kamp", "stop-brian", "brormand",
   "en-fars-kamp", "stop-saa-brian", "som-en-kokosnoed"]

/-- The alternatives of BOT_PATTERNS (all literal, no metacharacters). -/
def botTokens : List String :=
  ["bot", "crawl", "spider", "slurp", "mediapartners", "adsbot",
   "bingpreview", "googlebot", "yandex", "baidu", "semrush", "ahrefs",
   "mj12bot", "dotbot", "searchbot", "claudebot"]

/-- BOT_PATTERNS.search(ua): case-insensitive substring match of any
bot token. -/
def botMatch (ua : String) : Bool :=
  let low := ua.toList.map asciiLower
  botTokens.any (fun t => containsSubChars t.toList low)

/-- NP_SONG_MAP.get(song, song): normalize short heartbeat IDs to
canonical audio file names. -/
def npSongMap (song : String) : String :=
  if song = "fars-kamp" then "en-fars-kamp"
  else if song = "stop-brian" then "stop-saa-brian"
  else if song = "kokosnoed" then "som-en-kokosnoed"
  else song

/-- The longest p such that cs = p ++ ".mp3" ++ rest (the greedy (.+)\.mp3
regex group); None when no ".mp3" occurs. -/
def greedyMp3 : List Char → Option (List Char)
  | [] => none
  | c :: cs =>
    match greedyMp3 cs with
    | some p => some (c :: p)
    | none => if isPrefixOfChars ['.', 'm', 'p', '3'] (c :: cs) then some [] else none

/-- parse_song_name: re.match('/audio/(.+)\\.mp3', path); the match is
anchored at the start, the group is greedy, and trailing characters after
".mp3" are allowed. -/
def parse_song_name (path : String) : Option String :=
  if pyStartsWith path "/audio/" then
    match greedyMp3 (path.toList.drop 7) with
    | some p => if p = [] then none else some (String.mk p)
    | none => none
  else none

/-- is_private_ip from the source, including the fall-through of the
172.16/12 branch when the second octet is absent, non-numeric, or out of
range. -/
def is_private_ip (ip : String) : Bool :=
  if pyStartsWith ip "127." ∨ pyStartsWith ip "10." ∨ pyStartsWith ip "192.168." then
    true
  else
    let sec172 : Bool :=
      if pyStartsWith ip "172." then
        match pyInt ((pySplit '.' ip).getD 1 "") with
        | some n => 16 ≤ n ∧ n ≤ 31
        | none => false
      else false
    if sec172 then true
    else ip = "::1" ∨ ip = "" ∨ pyStartsWith ip "fe80:"

/-- Device/browser/os triple produced by get_device_info. -/
structure DeviceInfo where
  device : String
  browser : String
  os : String
deriving DecidableEq, Repr, Inhabited

/-- get_device_info: without the user_agents library (or for an empty UA
string) the fixed fallback; otherwise the library's classification,
abstracted as a function (its try/except fallback is part of that
function's behaviour). -/
def get_device_info (uaLib : Option (String → DeviceInfo)) (ua : String) : DeviceInfo :=
  match uaLib with
  | none => ⟨"Ukendt", "", ""⟩
  | some f => if ua = "" then ⟨"Ukendt", "", ""⟩ else f ua

/-! The per-run mutable accumulators of main(). -/

/-- One record of the plays list (country and code are attached later,
after geolocation). -/
structure PlayRec where
  t : String
  ip : String
  s : String
  ua : String
  device : String
  browser : String
  os : String
deriving DecidableEq, Repr, Inhabited

/-- The dedup key (ip, song, minute-truncated timestamp) of a play. -/
def tripleOf (p : PlayRec) : String × String × String :=
  (p.ip, p.s, strTake p.t 16)

/-- All accumulators main() mutates while scanning the three logs
(per_hour is declared in the source but never used and is omitted;
track_plays_added is incremented but never read and is omitted). -/
structure RunState where
  plays : List PlayRec
  per_song : List (String × Nat)
  per_ip : List (String × Nat)
  per_day : List (String × Nat)
  per_browser : List (String × Nat)
  per_os : List (String × Nat)
  per_device : List (String × Nat)
  page_views : Nat
  unique_page_ips : List String
  hourly_activity : List (Int × Nat)
  all_ips : List String
  per_song_duration : List (String × Frac)
  total_listen_time : Frac
deriving Repr, Inhabited

/-- The empty initial accumulator state. -/
def initState : RunState :=
  ⟨[], [], [], [], [], [], [], 0, [], [], [], [], ⟨0, 1⟩⟩

/-- One record matched by LOG_PATTERN from a primary access-log line:
the named groups ip, time, method, path, status, bytes, referer, ua
(status and bytes already via int(), as in the source). -/
structure PrimaryEvent where
  ip : String
  time : String
  method : String
  path : String
  status : Nat
  bytesSent : Nat
  referer : String
  ua : String
deriving DecidableEq, Repr, Inhabited

/-- The body of the nginx access-log loop (source lines 153-210): bot
filter, page-view counting, audio-play filtering, stats accumulation and
the play append.  No dedup happens here. -/
def nginxStep (uaLib : Option (String → DeviceInfo)) (st : RunState)
    (e : PrimaryEvent) : RunState :=
  if botMatch e.ua then st
  else
    let st :=
      if e.method = "GET" ∧ e.path = "/" ∧ e.status = 200 then
        { st with page_views := st.page_views + 1,
                  unique_page_ips := insertSet e.ip st.unique_page_ips }
      else st
    if e.method ≠ "GET" ∨ (e.status ≠ 200 ∧ e.status ≠ 206) then st
    else
      match parse_song_name e.path with
      | none => st
      | some song =>
        if pyContains song "-art" then st
        else
          let st := { st with all_ips := insertSet e.ip st.all_ips }
          let parsed_time := parse_time e.time
          let day_key := strTake parsed_time 10
          let st :=
            match pyInt (strSlice parsed_time 11 13) with
            | some h => { st with hourly_activity := bump st.hourly_activity h }
            | none => st
          let info := get_device_info uaLib e.ua
          let st :=
            { st with per_browser := bump st.per_browser info.browser,
                      per_os := bump st.per_os info.os,
                      per_device := bump st.per_device info.device }
          let st :=
            { st with plays := st.plays ++
                [(⟨parsed_time, e.ip, song, strTake e.ua 120,
                   info.device, info.browser, info.os⟩ : PlayRec)] }
          { st with per_song := bump st.per_song song,
                    per_ip := bump st.per_ip e.ip,
                    per_day := bump st.per_day day_key }

/-- The full nginx pass over the primary log records. -/
def nginxPass (uaLib : Option (String → DeviceInfo))
    (evs : List PrimaryEvent) : RunState :=
  evs.foldl (nginxStep uaLib) initState

/-! The heartbeat (np.log) pass. -/

/-- The fields extracted from one np.log line (source lines 224-246):
splitting on '|', per-field strip, short-ID normalization, UA selection by
field count, song/bot filters, timestamp parse.  None when the line is
dropped. -/
structure NpParsed where
  ip : String
  song : String
  ua : String
  ts : DateTime
deriving DecidableEq, Repr

/-- Parse-and-filter of one heartbeat line, exactly the guard sequence of
the source loop body. -/
def npParseLine (line : String) : Option NpParsed :=
  let parts := pySplit '|' (pyStrip line)
  if parts.length < 3 then none
  else
    let ip := pyStrip (parts.getD 0 "")
    let time_str := pyStrip (parts.getD 1 "")
    let song := npSongMap (pyStrip (parts.getD 2 ""))
    let ua :=
      if parts.length ≥ 5 then pyStrip (parts.getD 4 "")
      else if parts.length ≥ 4 then pyStrip (parts.getD 3 "")
      else ""
    if song = "" ∨ song = "-" then none
    else if botMatch ua then none
    else
      match fromisoformatNaiveUTC time_str with
      | none => none
      | some ts => some ⟨ip, song, ua, ts⟩

/-- A candidate play found in np.log: (ip, song, iso, ua, ts_utc). -/
structure NpEntry where
  ip : String
  song : String
  iso : String
  ua : String
  ts : DateTime
deriving DecidableEq, Repr

/-- Session-gap state and the collected candidates of the np.log scan. -/
abbrev Np1State : Type :=
  List ((String × String) × DateTime) × List NpEntry

/-- One np.log line against the session map: the first heartbeat for an
(ip, song) key, or one more than 30 seconds after the previous one, is a
new candidate; closer heartbeats are absorbed; the last-seen timestamp is
always advanced. -/
def np1Step (st : Np1State) (line : String) : Np1State :=
  match npParseLine line with
  | none => st
  | some pe =>
    let key := (pe.ip, pe.song)
    let iso := toIsoZ pe.ts
    let entry : NpEntry := ⟨pe.ip, pe.song, iso, pe.ua, pe.ts⟩
    match alGet st.1 key with
    | some last =>
      let entries :=
        if epochMicro pe.ts - epochMicro last > 30000000 then st.2 ++ [entry]
        else st.2
      (alSet st.1 key pe.ts, entries)
    | none => (alSet st.1 key pe.ts, st.2 ++ [entry])

/-- The np.log candidate-collection pass (phase one of the np section). -/
def np1Pass (lines : List String) : List NpEntry :=
  (lines.foldl np1Step ([], [])).2

/-- Confirm one candidate play against the dedup set (shared shape of
source lines 260-282 and 329-355): on a (ip, song, minute) hit the
candidate is dropped; on a miss the triple is recorded and the play is
appended with all its per-play stats. -/
def addConfirmed (uaLib : Option (String → DeviceInfo))
    (known : List (String × String × String)) (st : RunState)
    (ip song iso ua : String) :
    List (String × String × String) × RunState :=
  let minute_key := strTake iso 16
  if (ip, song, minute_key) ∈ known then (known, st)
  else
    let known := (ip, song, minute_key) :: known
    let st := { st with all_ips := insertSet ip st.all_ips }
    let day_key := strTake iso 10
    let info := get_device_info uaLib ua
    let st :=
      { st with per_browser := bump st.per_browser info.browser,
                per_os := bump st.per_os info.os,
                per_device := bump st.per_device info.device }
    let st :=
      { st with plays := st.plays ++
          [(⟨iso, ip, song, strTake ua 120,
             info.device, info.browser, info.os⟩ : PlayRec)] }
    let st :=
      { st with per_song := bump st.per_song song,
                per_ip := bump st.per_ip ip,
                per_day := bump st.per_day day_key }
    let st :=
      match pyInt (strSlice iso 11 13) with
      | some h => { st with hourly_activity := bump st.hourly_activity h }
      | none => st
    (known, st)

/-- Phase two of the np section: add the np candidates that are not
already known from the nginx log. -/
def npConfirmStep (uaLib : Option (String → DeviceInfo))
    (ks : List (String × String × String) × RunState) (e : NpEntry) :
    List (String × String × String) × RunState :=
  addConfirmed uaLib ks.1 ks.2 e.ip e.song e.iso e.ua

/-! The track.log pass. -/

/-- The body of the track.log loop (source lines 292-355): field split and
strip, whitelist and bot filters, short-ID normalization, duration
accounting for non-play events, timestamp parse and dedup-confirmation for
play events. -/
def trackStep (uaLib : Option (String → DeviceInfo))
    (ks : List (String × String × String) × RunState) (line : String) :
    List (String × String × String) × RunState :=
  let parts := pySplit '|' (pyStrip line)
  if parts.length < 5 then ks
  else
    let ip := pyStrip (parts.getD 0 "")
    let time_str := pyStrip (parts.getD 1 "")
    let event := pyStrip (parts.getD 2 "")
    let song0 := pyStrip (parts.getD 3 "")
    let dur_str := pyStrip (parts.getD 4 "")
    let ua := if parts.length > 5 then pyStrip (parts.getD 5 "") else ""
    if song0 = "" ∨ song0 = "-" ∨ song0 ∉ VALID_SONGS then ks
    else if botMatch ua then ks
    else
      let song := npSongMap song0
      if event ≠ "play" then
        if event = "end" ∨ event = "leave" ∨ event = "pause" then
          match pyFloat dur_str with
          | some dur =>
            if fracLt ⟨0, 1⟩ dur ∧ fracLt dur ⟨600, 1⟩ then
              (ks.1, { ks.2 with
                        per_song_duration := alAddQ ks.2.per_song_duration song dur,
                        total_listen_time := fracAdd ks.2.total_listen_time dur })
            else ks
          | none => ks
        else ks
      else
        match fromisoformatNaiveUTC time_str with
        | none => ks
        | some ts => addConfirmed uaLib ks.1 ks.2 ip song (toIsoZ ts) ua

/-- The three passes of main() in their fixed order: nginx log, then the
np.log candidates deduplicated against the nginx-derived triples, then the
track.log events; a missing optional log file skips its pass. -/
def pipelineState (uaLib : Option (String → DeviceInfo))
    (evs : List PrimaryEvent) (npLines trackLines : Option (List String)) :
    List (String × String × String) × RunState :=
  let s1 := nginxPass uaLib evs
  let known0 := s1.plays.map tripleOf
  let ks1 :=
    match npLines with
    | none => (known0, s1)
    | some lines => (np1Pass lines).foldl (npConfirmStep uaLib) (known0, s1)
  match trackLines with
  | none => ks1
  | some lines => lines.foldl (trackStep uaLib) ks1

/-! The geolocation resolver (ip-api.com batch endpoint with persistent
cache). -/

/-- A cached geolocation entry. -/
structure GeoEntry where
  country : String
  code : String
deriving DecidableEq, Repr, Inhabited

/-- One element of a batch response: the JSON object's query, country and
countryCode keys, each possibly absent (r.get defaults apply at use). -/
structure GeoResp where
  query : Option String
  country : Option String
  countryCode : Option String
deriving DecidableEq, Repr

/-- The geolocation cache file content: remote_id -> entry. -/
abbrev GeoCache : Type := List (String × GeoEntry)

/-- Merge one batch response into the cache:
cache[r.query or ''] = (r.country or 'Ukendt', r.countryCode or ''). -/
def applyResults (rs : List GeoResp) (c : GeoCache) : GeoCache :=
  rs.foldl
    (fun c r => alSet c (r.query.getD "")
      ⟨r.country.getD "Ukendt", r.countryCode.getD ""⟩) c

/-- The batch loop of lookup_countries: issue each batch in order; a
transport failure (None) is caught and breaks out of the loop, abandoning
all remaining batches.  Returns the updated cache and the list of batches
actually sent. -/
def geoBatches (service : List String → Option (List GeoResp)) :
    List (List String) → GeoCache → GeoCache × List (List String)
  | [], c => (c, [])
  | b :: bs, c =>
    match service b with
    | none => (c, [b])
    | some rs =>
      let c := applyResults rs c
      let r := geoBatches service bs c
      (r.1, b :: r.2)

/-- The trailing marking loop of lookup_countries: private IPs still
missing from the cache get the fixed local pseudo-country. -/
def markPrivate (ips : List String) (c : GeoCache) : GeoCache :=
  ips.foldl
    (fun c ip =>
      if alGet c ip = none ∧ is_private_ip ip then
        alSet c ip ⟨"Lokalt", "LO"⟩
      else c) c

/-- The uncached public identifiers, in input order (the filter of
lookup_countries). -/
def newIps (ips : List String) (cache : GeoCache) : List String :=
  ips.filter (fun ip => alGet cache ip = none ∧ ¬ is_private_ip ip)

/-- lookup_countries from the source, including its early return: when no
uncached public IP exists the function returns at once, skipping the
private-IP marking loop. -/
def lookup_countries (service : List String → Option (List GeoResp))
    (ips : List String) (cache : GeoCache) : GeoCache × List (List String) :=
  let new_ips := newIps ips cache
  if new_ips = [] then (cache, [])
  else
    let r := geoBatches service (chunks100 new_ips) cache
    (markPrivate ips r.1, r.2)

/-! Report assembly (source lines 357-406). -/

/-- A play record enriched with country data for the report. -/
structure FinalPlay where
  t : String
  ip : String
  s : String
  ua : String
  device : String
  browser : String
  os : String
  country : String
  cc : String
deriving DecidableEq, Repr, Inhabited

/-- One top_ips element. -/
structure TopIp where
  ip : String
  plays : Nat
  country : String
deriving DecidableEq, Repr, Inhabited

/-- The stats JSON document (the generated wall-clock timestamp field is
environment input and is not modelled). -/
structure Report where
  total_plays : Nat
  unique_listeners : Nat
  page_views : Nat
  unique_visitors : Nat
  avg_plays_per_day : Frac
  peak_hour : Int
  total_listen_minutes : Frac
  per_song_duration : List (String × Frac)
  per_song : List (String × Nat)
  per_day : List (String × Nat)
  hourly_activity : List (String × Nat)
  per_browser : List (String × Nat)
  per_os : List (String × Nat)
  per_device : List (String × Nat)
  per_country : List (String × Nat)
  top_ips : List TopIp
  recent_plays : List FinalPlay
deriving Repr, Inhabited

/-- Attach country and code to a play (source lines 369-372). -/
def assignGeo (cache : GeoCache) (p : PlayRec) : FinalPlay :=
  let geo := alGet cache p.ip
  ⟨p.t, p.ip, p.s, p.ua, p.device, p.browser, p.os,
   (geo.map GeoEntry.country).getD "Ukendt",
   (geo.map GeoEntry.code).getD ""⟩

/-- peak_hour: max(hourly_activity, key=hourly_activity.get) — Python max
returns the first key (in dict insertion order) attaining the maximal
value — or 0 for an empty dict. -/
def peakHour (hourly : List (Int × Nat)) : Int :=
  match hourly.map Prod.fst with
  | [] => 0
  | k :: ks =>
    ks.foldl
      (fun best x =>
        if alGetD hourly x 0 > alGetD hourly best 0 then x else best) k

/-- Build the stats structure from the final accumulators and the updated
geolocation cache, with the source's ordering and truncation of each
table. -/
def buildReport (st : RunState) (cache : GeoCache) : Report :=
  let per_country :=
    st.per_ip.foldl
      (fun pc kv =>
        let geo := alGet cache kv.1
        bumpBy pc ((geo.map GeoEntry.country).getD "Ukendt") kv.2) []
  let playsSorted :=
    sortByStable (fun a b => decide (b.t ≤ a.t)) (st.plays.map (assignGeo cache))
  let top_ips :=
    (sortByStable (fun a b => decide (b.2 ≤ a.2)) st.per_ip).take 20
  let total_days := max st.per_day.length 1
  { total_plays := st.plays.length
    unique_listeners := st.per_ip.length
    page_views := st.page_views
    unique_visitors := st.unique_page_ips.length
    avg_plays_per_day := pyRound1 (fracDivN (fracOfNat st.plays.length) total_days)
    peak_hour := peakHour st.hourly_activity
    total_listen_minutes := pyRound1 (fracDivN st.total_listen_time 60)
    per_song_duration :=
      (sortByStable (fun a b => fracLe b.2 a.2) st.per_song_duration).map
        (fun kv => (kv.1, pyRound1 (fracDivN kv.2 60)))
    per_song := sortByStable (fun a b => decide (b.2 ≤ a.2)) st.per_song
    per_day := sortByStable (fun a b => decide (a.1 ≤ b.1)) st.per_day
    hourly_activity :=
      (List.range 24).map (fun h => (toString h, alGetD st.hourly_activity (h : Int) 0))
    per_browser := (sortByStable (fun a b => decide (b.2 ≤ a.2)) st.per_browser).take 10
    per_os := (sortByStable (fun a b => decide (b.2 ≤ a.2)) st.per_os).take 10
    per_device := sortByStable (fun a b => decide (b.2 ≤ a.2)) st.per_device
    per_country := (sortByStable (fun a b => decide (b.2 ≤ a.2)) per_country).take 15
    top_ips := top_ips.map
      (fun kv =>
        ⟨kv.1, kv.2, ((alGet cache kv.1).map GeoEntry.country).getD "?"⟩)
    recent_plays := playsSorted.take 200 }

/-! The whole run. -/

/-- All environment inputs of one run of main(): the three log files
(None = missing), the geolocation cache file content (None = missing or
unreadable), the optional user_agents library, and the ip-api.com batch
service. -/
structure Inputs where
  primaryLog : Option (List PrimaryEvent)
  npLog : Option (List String)
  trackLog : Option (List String)
  geoCacheFile : Option GeoCache
  uaLib : Option (String → DeviceInfo)
  geoService : List String → Option (List GeoResp)

/-- The observable effects of one run: the report written (None = no
write), the cache file written back (None = no write), the batch requests
sent to the geolocation service, and whether the cache file was read. -/
structure Effects where
  report : Option Report
  cacheWritten : Option GeoCache
  geoRequests : List (List String)
  cacheRead : Bool

/-- main(): an early silent return when the primary log is missing
(before any other file is touched); otherwise the three passes, the
geolocation lookup over all play and page-view IPs, the cache save, and
the report build. -/
def mainEffects (i : Inputs) : Effects :=
  match i.primaryLog with
  | none => ⟨none, none, [], false⟩
  | some evs =>
    let ks := pipelineState i.uaLib evs i.npLog i.trackLog
    let st := ks.2
    let cache0 := i.geoCacheFile.getD []
    let geo := lookup_countries i.geoService
      (unionList st.all_ips st.unique_page_ips) cache0
    ⟨some (buildReport st geo.1), some geo.1, geo.2, true⟩

/-- The final plays collection of a run (empty when the run exits early). -/
def runPlays (i : Inputs) : List PlayRec :=
  match i.primaryLog with
  | none => []
  | some evs => (pipelineState i.uaLib evs i.npLog i.trackLog).2.plays

/-- The report of a run, when one is produced. -/
def runReport (i : Inputs) : Option Report :=
  (mainEffects i).report

/-! Concrete runs used to settle the testable scenarios below. -/

/-- Scenario A's primary-log record: one qualifying play of
/audio/kokosnoed.mp3 by 1.2.3.4 at 10:00:05. -/
def evScenA : PrimaryEvent :=
  ⟨"1.2.3.4", "02/Jan/2024:10:00:05 +0000", "GET", "/audio/kokosnoed.mp3",
   200, 1000, "-", "Mozilla/5.0"⟩

/-- Scenario A's inputs: the play above plus a track-log end event for the
same ip/song/day with duration 185; no np.log, empty cache, failing
geolocation transport, no UA library. -/
def inputsScenA : Inputs :=
  ⟨some [evScenA],
   none,
   some ["1.2.3.4|2024-01-02T10:05:00Z|end|kokosnoed|185|Mozilla/5.0"],
   none, none, fun _ => none⟩

/-- The report of scenario A. -/
def repScenA : Report := (runReport inputsScenA).getD default

/-- Two primary-log records for the same ip, song and minute (seconds 05
and 07), as range requests within one playback produce. -/
def evDup1 : PrimaryEvent :=
  ⟨"1.2.3.4", "02/Jan/2024:10:00:05 +0000", "GET", "/audio/brormand.mp3",
   200, 1000, "-", "Mozilla/5.0"⟩

/-- Second record of the same playback, two seconds later, partial
content. -/
def evDup2 : PrimaryEvent :=
  ⟨"1.2.3.4", "02/Jan/2024:10:00:07 +0000", "GET", "/audio/brormand.mp3",
   206, 1000, "-", "Mozilla/5.0"⟩

/-- A run whose primary log holds the two same-minute records. -/
def inputsDup : Inputs :=
  ⟨some [evDup1, evDup2], none, none, none, none, fun _ => none⟩

/-- A run whose heartbeat log holds exactly two lines for one (ip, song)
45 seconds apart, both inside minute 10:00. -/
def inputsHb45 : Inputs :=
  ⟨some [],
   some ["1.2.3.4|2024-01-02T10:00:10Z|kokosnoed",
         "1.2.3.4|2024-01-02T10:00:55Z|kokosnoed"],
   none, none, none, fun _ => none⟩

/-- A run whose only remote identifier is the private 192.168.1.5. -/
def inputsPriv : Inputs :=
  ⟨some [(⟨"192.168.1.5", "02/Jan/2024:10:00:05 +0000", "GET",
           "/audio/brormand.mp3", 200, 1000, "-", "Mozilla/5.0"⟩ : PrimaryEvent)],
   none, none, none, none, fun _ => none⟩

/-- The report of the private-only run. -/
def repPriv : Report := (runReport inputsPriv).getD default

/-- Two plays in hour 05 and hour 03 (in that encounter order), one each:
a tie of the hourly buckets. -/
def inputsTie : Inputs :=
  ⟨some [(⟨"1.2.3.4", "02/Jan/2024:05:00:00 +0000", "GET",
           "/audio/brormand.mp3", 200, 1000, "-", "Mozilla/5.0"⟩ : PrimaryEvent),
         (⟨"1.2.3.4", "02/Jan/2024:03:10:00 +0000", "GET",
           "/audio/brormand.mp3", 200, 1000, "-", "Mozilla/5.0"⟩ : PrimaryEvent)],
   none, none, none, none, fun _ => none⟩

/-- The report of the tied-hours run. -/
def repTie : Report := (runReport inputsTie).getD default

/-- A run with one public-IP play and a failing geolocation transport. -/
def inputsPub : Inputs :=
  ⟨some [evDup1], none, none, none, none, fun _ => none⟩

/-- The report of the public-IP failing-transport run. -/
def repPub : Report := (runReport inputsPub).getD default

/-- A qualifying primary-log record whose bracketed timestamp fails
day/Mon/Year:H:M:S parsing but whose characters 11..13 are digits. -/
def evBadTime : PrimaryEvent :=
  ⟨"9.9.9.9", "ABCDEFGHIJK12 +0000", "GET", "/audio/brormand.mp3",
   200, 1000, "-", "Mozilla/5.0"⟩

/-- A run whose primary log holds only the malformed-timestamp play. -/
def inputsBadTime : Inputs :=
  ⟨some [evBadTime], none, none, none, none, fun _ => none⟩

/-- The report of the malformed-timestamp run. -/
def repBadTime : Report := (runReport inputsBadTime).getD default

/-- A run with no primary log but with both optional logs present and a
non-empty cache file. -/
def inputsNoPrimary : Inputs :=
  ⟨none, some ["1.2.3.4|2024-01-02T10:00:10Z|kokosnoed"],
   some ["1.2.3.4|2024-01-02T10:05:00Z|end|kokosnoed|185|Mozilla/5.0"],
   some [("8.8.8.8", ⟨"United States", "US"⟩)], none, fun _ => none⟩

/-! Theorems settling the claims. -/

/-- C2 counterexample: in scenario A the primary-log song identifier is
stored as written in the audio path; per_song has no key
'som-en-kokosnoed' (the claim expects it to hold 1), although the play is
counted. -/
theorem C2_counterexample :
    alGet repScenA.per_song "som-en-kokosnoed" = none ∧
    repScenA.total_plays = 1 := by
  exact ⟨rfl, rfl⟩

/-- C2 amended: scenario A yields total_plays = 1, per_song['kokosnoed'] =
1 (the primary-log identifier is kept verbatim; NP_SONG_MAP normalization
applies only to heartbeat- and track-log tokens), and
total_listen_minutes = 3.1 (the end event's 185 s is accounted under the
normalized track-log key). -/
theorem C2_amended :
    repScenA.total_plays = 1 ∧
    alGet repScenA.per_song "kokosnoed" = some 1 ∧
    repScenA.total_listen_minutes = ⟨31, 10⟩ ∧
    repScenA.per_song_duration = [("som-en-kokosnoed", ⟨31, 10⟩)] := by
  refine ⟨rfl, rfl, rfl, by decide⟩

/-- C1 counterexample: a run whose primary log holds two records for the
same ip, song and minute (seconds 05 and 07) produces two distinct
confirmed plays sharing the (remote_id, canonical_song_id, minute) triple:
the dedup set is only consulted for heartbeat- and track-log candidates,
never within the primary pass. -/
theorem C1_counterexample :
    (runPlays inputsDup).length = 2 ∧
    tripleOf ((runPlays inputsDup).getD 0 default) =
      tripleOf ((runPlays inputsDup).getD 1 default) ∧
    (runPlays inputsDup).getD 0 default ≠ (runPlays inputsDup).getD 1 default := by
  decide

/-- C3 counterexample: two heartbeats for one (ip, song) 45 seconds apart
but inside the same minute (10:00:10 and 10:00:55) yield two session
candidates yet only one confirmed play, because the second candidate is
removed by the (ip, song, minute) dedup set; the claim expects exactly 2
confirmed plays from any 45-second gap. -/
theorem C3_counterexample :
    epochMicro ⟨2024, 1, 2, 10, 0, 55, 0⟩ - epochMicro ⟨2024, 1, 2, 10, 0, 10, 0⟩
      = 45000000 ∧
    (np1Pass ["1.2.3.4|2024-01-02T10:00:10Z|kokosnoed",
              "1.2.3.4|2024-01-02T10:00:55Z|kokosnoed"]).length = 2 ∧
    (runPlays inputsHb45).length = 1 := by
  refine ⟨by decide, rfl, rfl⟩

/-- C4: evaluation of the code at the failing input.  When the only
remote identifier of the run is the private 192.168.1.5 and the cache is
empty, no geolocation batch is sent (as the claim says), but the
private-marking loop is skipped by the early return of lookup_countries
(new_ips is empty), so no cache entry is written for the IP and the report
shows the unknown country 'Ukendt' instead of the local pseudo-country
'Lokalt'. -/
theorem C4_code_eval :
    is_private_ip "192.168.1.5" = true ∧
    (mainEffects inputsPriv).geoRequests = [] ∧
    alGet ((mainEffects inputsPriv).cacheWritten.getD []) "192.168.1.5" = none ∧
    repPriv.recent_plays.map FinalPlay.country = ["Ukendt"] ∧
    repPriv.recent_plays.map FinalPlay.ip = ["192.168.1.5"] := by
  decide

/-- C5 counterexample: two plays encountered in hour 05 then hour 03, one
each.  Both hourly buckets hold the maximal count 1, yet peak_hour is 5,
the first-encountered bucket, not the numerically smallest tied hour 3. -/
theorem C5_counterexample :
    repTie.peak_hour = 5 ∧
    alGet repTie.hourly_activity "3" = some 1 ∧
    alGet repTie.hourly_activity "5" = some 1 ∧
    (∀ kv ∈ repTie.hourly_activity, kv.2 ≤ 1) := by
  refine ⟨rfl, rfl, rfl, by decide⟩

/-- C7 counterexample: with one public-IP play and a failing geolocation
transport, the run aborts lookups and keeps no entry for the IP; the play
records do render 'Ukendt', but the same unresolved identifier appears in
top_ips with country '?', so it does not appear in the report with the
unknown country 'Ukendt' everywhere. -/
theorem C7_counterexample :
    (mainEffects inputsPub).cacheWritten = some [] ∧
    repPub.recent_plays.map FinalPlay.country = ["Ukendt"] ∧
    repPub.top_ips.map TopIp.country = ["?"] ∧
    repPub.top_ips.map TopIp.ip = ["1.2.3.4"] := by
  decide

/-- C10 counterexample: a qualifying line whose bracketed time is
'ABCDEFGHIJK12 +0000' fails day/Mon/Year:H:M:S parsing, so the play is
kept with the raw string as its timestamp and the day key is its first 10
characters — but the hourly contribution is not skipped: characters 11..13
are '12', int() succeeds, and hourly bucket 12 is incremented. -/
theorem C10_counterexample :
    repBadTime.total_plays = 1 ∧
    (runPlays inputsBadTime).map PlayRec.t = ["ABCDEFGHIJK12 +0000"] ∧
    alGet repBadTime.per_day "ABCDEFGHIJ" = some 1 ∧
    alGet repBadTime.hourly_activity "12" = some 1 := by
  decide

/-- C8: when the primary access log is missing, main returns before
touching anything: no report is written, the geolocation cache is neither
read nor written, no geolocation request is sent, and no error is
surfaced, regardless of the other inputs. -/
theorem C8_missing_primary (i : Inputs) (h : i.primaryLog = none) :
    (mainEffects i).report = none ∧ (mainEffects i).cacheWritten = none ∧
    (mainEffects i).geoRequests = [] ∧ (mainEffects i).cacheRead = false := by
  simp [mainEffects, h]

/-- C8 witness: the early-return behaviour at a run with no primary log
but with both optional logs present and a non-empty cache file. -/
theorem C8_witness :
    (mainEffects inputsNoPrimary).report = none ∧
    (mainEffects inputsNoPrimary).cacheWritten = none ∧
    (mainEffects inputsNoPrimary).geoRequests = [] ∧
    (mainEffects inputsNoPrimary).cacheRead = false :=
  C8_missing_primary inputsNoPrimary rfl

/-- C9: every produced report respects the truncation caps: per_browser
and per_os at most 10 entries, per_country at most 15, top_ips at most 20,
recent_plays at most 200. -/
theorem C9_truncation_caps (i : Inputs) (r : Report) (h : runReport i = some r) :
    r.per_browser.length ≤ 10 ∧ r.per_os.length ≤ 10 ∧
    r.per_country.length ≤ 15 ∧ r.top_ips.length ≤ 20 ∧
    r.recent_plays.length ≤ 200 := by
  cases hp : i.primaryLog with
  | none => simp [runReport, mainEffects, hp] at h
  | some evs =>
    simp only [runReport, mainEffects, hp] at h
    injection h with h
    subst h
    refine ⟨?_, ?_, ?_, ?_, ?_⟩ <;>
      simp only [buildReport, List.length_map] <;>
      exact List.length_take_le _ _

/-- C9 witness: the caps at the concrete public-IP run. -/
theorem C9_witness :
    (((runReport inputsPub).getD default).per_browser.length ≤ 10 ∧
     ((runReport inputsPub).getD default).per_os.length ≤ 10 ∧
     ((runReport inputsPub).getD default).per_country.length ≤ 15 ∧
     ((runReport inputsPub).getD default).top_ips.length ≤ 20 ∧
     ((runReport inputsPub).getD default).recent_plays.length ≤ 200) :=
  C9_truncation_caps inputsPub ((runReport inputsPub).getD default) rfl

/-- Replacing 'Z' distributes over list concatenation. -/
theorem zToOffset_append (a b : List Char) :
    zToOffset (a ++ b) = zToOffset a ++ zToOffset b := by
  induction a with
  | nil => rfl
  | cons c cs ih =>
    by_cases hc : c = 'Z' <;> simp [zToOffset, hc, ih]

/-- Replacing 'Z' is the identity on strings without 'Z'. -/
theorem zToOffset_of_not_mem (a : List Char) (h : 'Z' ∉ a) : zToOffset a = a := by
  induction a with
  | nil => rfl
  | cons c cs ih =>
    simp only [List.mem_cons, not_or] at h
    have hc : ¬ c = 'Z' := fun hcz => h.1 hcz.symm
    simp [zToOffset, hc, ih h.2]

/-- C6: the heartbeat-timestamp parser normalizes the trailing-'Z'
notation and the explicit '+00:00' UTC-offset notation of the same instant
into the same naive-UTC result: for any timestamp core (which, being made
of digits and date separators, contains no 'Z'), appending 'Z' and
appending '+00:00' parse identically — hence equal minute dedup keys. -/
theorem C6_z_offset_equiv (s : String) (h : 'Z' ∉ s.toList) :
    fromisoformatNaiveUTC (s ++ "Z") = fromisoformatNaiveUTC (s ++ "+00:00") := by
  unfold fromisoformatNaiveUTC
  have h1 : (s ++ "Z").toList = s.toList ++ "Z".toList := String.data_append s "Z"
  have h2 : (s ++ "+00:00").toList = s.toList ++ "+00:00".toList :=
    String.data_append s "+00:00"
  rw [h1, h2, zToOffset_append, zToOffset_append, zToOffset_of_not_mem _ h]
  rfl

/-- C6 witness: the equivalence at the concrete instant 2024-01-02
10:00:05 UTC. -/
theorem C6_witness :
    fromisoformatNaiveUTC ("2024-01-02T10:00:05" ++ "Z")
      = fromisoformatNaiveUTC ("2024-01-02T10:00:05" ++ "+00:00") :=
  C6_z_offset_equiv "2024-01-02T10:00:05" (by decide)

/-- One confirmation step either leaves the dedup set and plays unchanged
(triple already known) or appends exactly one play whose triple was not
known and records that triple. -/
theorem addConfirmed_shape (uaLib : Option (String → DeviceInfo))
    (known : List (String × String × String)) (st : RunState)
    (ip song iso ua : String) :
    (addConfirmed uaLib known st ip song iso ua = (known, st)) ∨
    ∃ p : PlayRec,
      (addConfirmed uaLib known st ip song iso ua).1 = tripleOf p :: known ∧
      (addConfirmed uaLib known st ip song iso ua).2.plays = st.plays ++ [p] ∧
      tripleOf p ∉ known := by
  by_cases hm : (ip, song, strTake iso 16) ∈ known
  · left
    simp [addConfirmed, hm]
  · right
    refine ⟨⟨iso, ip, song, strTake ua 120, (get_device_info uaLib ua).device,
             (get_device_info uaLib ua).browser, (get_device_info uaLib ua).os⟩,
            ?_, ?_, ?_⟩
    · cases hpy : pyInt (strSlice iso 11 13) <;> simp [addConfirmed, hm, hpy, tripleOf]
    · cases hpy : pyInt (strSlice iso 11 13) <;> simp [addConfirmed, hm, hpy]
    · simpa [tripleOf] using hm

/-- Every track.log line either leaves the dedup set and plays unchanged
(filtered, duration-only, or duplicate) or appends one play with a fresh
recorded triple. -/
theorem trackStep_shape (uaLib : Option (String → DeviceInfo))
    (ks : List (String × String × String) × RunState) (line : String) :
    ((trackStep uaLib ks line).1 = ks.1 ∧ (trackStep uaLib ks line).2.plays = ks.2.plays) ∨
    ∃ p : PlayRec,
      (trackStep uaLib ks line).1 = tripleOf p :: ks.1 ∧
      (trackStep uaLib ks line).2.plays = ks.2.plays ++ [p] ∧
      tripleOf p ∉ ks.1 := by
  dsimp only [trackStep]
  repeat' split
  all_goals try exact Or.inl ⟨rfl, rfl⟩
  all_goals
    rcases addConfirmed_shape uaLib ks.1 ks.2 _ _ _ _ with h | ⟨p, h1, h2, h3⟩
  all_goals try exact Or.inl ⟨by rw [h], by rw [h]⟩
  all_goals exact Or.inr ⟨p, h1, h2, h3⟩

/-- Folding any step of the confirmation shape appends a block of new
plays whose triples are pairwise distinct, all recorded in the final dedup
set and all absent from the initial one, while the initial set only
grows. -/
theorem dedupFold_spec {σ : Type}
    (step : (List (String × String × String) × RunState) → σ →
      (List (String × String × String) × RunState))
    (hstep : ∀ ks x,
      ((step ks x).1 = ks.1 ∧ (step ks x).2.plays = ks.2.plays) ∨
      ∃ p : PlayRec, (step ks x).1 = tripleOf p :: ks.1 ∧
        (step ks x).2.plays = ks.2.plays ++ [p] ∧ tripleOf p ∉ ks.1) :
    ∀ (xs : List σ) (ks : List (String × String × String) × RunState),
    ∃ extra, (xs.foldl step ks).2.plays = ks.2.plays ++ extra ∧
      (∀ t ∈ ks.1, t ∈ (xs.foldl step ks).1) ∧
      (∀ p ∈ extra, tripleOf p ∈ (xs.foldl step ks).1 ∧ tripleOf p ∉ ks.1) ∧
      extra.Pairwise (fun a b => tripleOf a ≠ tripleOf b) := by
  intro xs
  induction xs with
  | nil =>
    intro ks
    exact ⟨[], by simp, fun t ht => ht, by simp, List.Pairwise.nil⟩
  | cons x xs ih =>
    intro ks
    rw [List.foldl_cons]
    rcases hstep ks x with ⟨h1, h2⟩ | ⟨p, h1, h2, h3⟩
    · obtain ⟨extra, he1, he2, he3, he4⟩ := ih (step ks x)
      refine ⟨extra, by rw [he1, h2], ?_, ?_, he4⟩
      · intro t ht
        exact he2 t (by rw [h1]; exact ht)
      · intro q hq
        exact ⟨(he3 q hq).1, fun hin => (he3 q hq).2 (by rw [h1]; exact hin)⟩
    · obtain ⟨extra, he1, he2, he3, he4⟩ := ih (step ks x)
      refine ⟨p :: extra, ?_, ?_, ?_, ?_⟩
      · rw [he1, h2, List.append_assoc]
        rfl
      · intro t ht
        exact he2 t (by rw [h1]; exact List.mem_cons_of_mem _ ht)
      · intro q hq
        rcases List.mem_cons.mp hq with hq | hq
        · subst hq
          refine ⟨he2 (tripleOf q) (by rw [h1]; exact List.mem_cons_self _ _), h3⟩
        · refine ⟨(he3 q hq).1, ?_⟩
          intro hin
          exact (he3 q hq).2 (by rw [h1]; exact List.mem_cons_of_mem _ hin)
      · refine List.Pairwise.cons ?_ he4
        intro a ha heq
        have : tripleOf a ∉ (step ks x).1 := (he3 a ha).2
        rw [h1] at this
        exact this (heq ▸ List.mem_cons_self _ _)

/-- Two consecutive confirmation phases compose: the appended blocks
concatenate, stay pairwise-distinct and stay disjoint from the initial
dedup set. -/
theorem dedupSpec_compose (ks0 ks1 ks2 : List (String × String × String) × RunState)
    (e1 e2 : List PlayRec)
    (h1p : ks1.2.plays = ks0.2.plays ++ e1)
    (h1k : ∀ t ∈ ks0.1, t ∈ ks1.1)
    (h1m : ∀ p ∈ e1, tripleOf p ∈ ks1.1 ∧ tripleOf p ∉ ks0.1)
    (h1pw : e1.Pairwise (fun a b => tripleOf a ≠ tripleOf b))
    (h2p : ks2.2.plays = ks1.2.plays ++ e2)
    (h2k : ∀ t ∈ ks1.1, t ∈ ks2.1)
    (h2m : ∀ p ∈ e2, tripleOf p ∈ ks2.1 ∧ tripleOf p ∉ ks1.1)
    (h2pw : e2.Pairwise (fun a b => tripleOf a ≠ tripleOf b)) :
    ks2.2.plays = ks0.2.plays ++ (e1 ++ e2) ∧
    (∀ t ∈ ks0.1, t ∈ ks2.1) ∧
    (∀ p ∈ e1 ++ e2, tripleOf p ∈ ks2.1 ∧ tripleOf p ∉ ks0.1) ∧
    (e1 ++ e2).Pairwise (fun a b => tripleOf a ≠ tripleOf b) := by
  refine ⟨by rw [h2p, h1p, List.append_assoc], fun t ht => h2k t (h1k t ht), ?_, ?_⟩
  · intro p hp
    rcases List.mem_append.mp hp with hp | hp
    · exact ⟨h2k _ (h1m p hp).1, (h1m p hp).2⟩
    · refine ⟨(h2m p hp).1, fun hin => (h2m p hp).2 (h1k _ hin)⟩
  · rw [List.pairwise_append]
    refine ⟨h1pw, h2pw, ?_⟩
    intro a ha b hb heq
    exact (h2m b hb).2 (heq ▸ (h1m a ha).1)

/-- C1 amended: the dedup invariant holds for every play of which at least
one of a pair derives from the heartbeat or track log: the final plays
collection is the primary-log plays followed by a block of extra plays
whose (remote_id, canonical_song_id, minute) triples are pairwise distinct
and distinct from every primary-log play's triple.  (Two plays both
derived from the primary access log may share a triple, as
C1_counterexample shows: the primary pass never consults the dedup set.) -/
theorem C1_amended (uaLib : Option (String → DeviceInfo)) (evs : List PrimaryEvent)
    (npL trL : Option (List String)) :
    ∃ extra,
      (pipelineState uaLib evs npL trL).2.plays = (nginxPass uaLib evs).plays ++ extra ∧
      extra.Pairwise (fun a b => tripleOf a ≠ tripleOf b) ∧
      ∀ a ∈ extra, ∀ b ∈ (nginxPass uaLib evs).plays, tripleOf a ≠ tripleOf b := by
  have hstepNp : ∀ ks e, ((npConfirmStep uaLib ks e).1 = ks.1 ∧
      (npConfirmStep uaLib ks e).2.plays = ks.2.plays) ∨
      ∃ p : PlayRec, (npConfirmStep uaLib ks e).1 = tripleOf p :: ks.1 ∧
        (npConfirmStep uaLib ks e).2.plays = ks.2.plays ++ [p] ∧ tripleOf p ∉ ks.1 := by
    intro ks e
    rcases addConfirmed_shape uaLib ks.1 ks.2 e.ip e.song e.iso e.ua with h | ⟨p, h1, h2, h3⟩
    · exact Or.inl ⟨by rw [npConfirmStep, h], by rw [npConfirmStep, h]⟩
    · exact Or.inr ⟨p, h1, h2, h3⟩
  set s1 := nginxPass uaLib evs with hs1
  set ks0 : List (String × String × String) × RunState := (s1.plays.map tripleOf, s1) with hks0
  have base : ∀ b ∈ s1.plays, tripleOf b ∈ ks0.1 := by
    intro b hb
    exact List.mem_map_of_mem tripleOf hb
  have main : ∃ extra,
      (pipelineState uaLib evs npL trL).2.plays = ks0.2.plays ++ extra ∧
      (∀ p ∈ extra, tripleOf p ∈ (pipelineState uaLib evs npL trL).1 ∧ tripleOf p ∉ ks0.1) ∧
      extra.Pairwise (fun a b => tripleOf a ≠ tripleOf b) := by
    cases hnp : npL with
    | none =>
      cases htr : trL with
      | none =>
        refine ⟨[], ?_, by simp, List.Pairwise.nil⟩
        simp [pipelineState, hks0, hs1]
      | some tlines =>
        have hps : pipelineState uaLib evs none (some tlines) =
            tlines.foldl (trackStep uaLib) ks0 := by
          simp [pipelineState, hks0, hs1]
        obtain ⟨e2, h2p, h2k, h2m, h2pw⟩ :=
          dedupFold_spec (trackStep uaLib) (trackStep_shape uaLib) tlines ks0
        exact ⟨e2, by rw [hps]; exact h2p, by rw [hps]; exact h2m, h2pw⟩
    | some nlines =>
      obtain ⟨e1, h1p, h1k, h1m, h1pw⟩ :=
        dedupFold_spec (npConfirmStep uaLib) hstepNp (np1Pass nlines) ks0
      cases htr : trL with
      | none =>
        have hps : pipelineState uaLib evs (some nlines) none =
            (np1Pass nlines).foldl (npConfirmStep uaLib) ks0 := by
          simp [pipelineState, hks0, hs1]
        exact ⟨e1, by rw [hps]; exact h1p, by rw [hps]; exact h1m, h1pw⟩
      | some tlines =>
        have hps : pipelineState uaLib evs (some nlines) (some tlines) =
            tlines.foldl (trackStep uaLib) ((np1Pass nlines).foldl (npConfirmStep uaLib) ks0) := by
          simp [pipelineState, hks0, hs1]
        obtain ⟨e2, h2p, h2k, h2m, h2pw⟩ :=
          dedupFold_spec (trackStep uaLib) (trackStep_shape uaLib) tlines
            ((np1Pass nlines).foldl (npConfirmStep uaLib) ks0)
        obtain ⟨hcp, hck, hcm, hcpw⟩ :=
          dedupSpec_compose ks0 ((np1Pass nlines).foldl (npConfirmStep uaLib) ks0)
            (tlines.foldl (trackStep uaLib) ((np1Pass nlines).foldl (npConfirmStep uaLib) ks0))
            e1 e2 h1p h1k h1m h1pw h2p h2k h2m h2pw
        exact ⟨e1 ++ e2, by rw [hps]; exact hcp, by rw [hps]; exact hcm, hcpw⟩
  obtain ⟨extra, hp, hm, hpw⟩ := main
  refine ⟨extra, hp, hpw, ?_⟩
  intro a ha b hb heq
  exact (hm a ha).2 (heq ▸ base b hb)

/-- A confirmation whose (ip, song, minute) triple is new always records
the triple and appends exactly one play. -/
theorem addConfirmed_not_mem (uaLib : Option (String → DeviceInfo))
    (known : List (String × String × String)) (st : RunState)
    (ip song iso ua : String)
    (h : (ip, song, strTake iso 16) ∉ known) :
    (addConfirmed uaLib known st ip song iso ua).1
        = (ip, song, strTake iso 16) :: known ∧
    ∃ p : PlayRec, (addConfirmed uaLib known st ip song iso ua).2.plays
        = st.plays ++ [p] := by
  cases hpy : pyInt (strSlice iso 11 13) <;> simp [addConfirmed, h, hpy]

/-- The np.log session step at a line that parses: the session map is
advanced and a candidate is appended when the key is new or the gap
exceeds 30 seconds. -/
theorem np1Step_parsed (st : Np1State) (line : String) (pe : NpParsed)
    (h : npParseLine line = some pe) :
    np1Step st line =
      (match alGet st.1 (pe.ip, pe.song) with
       | some last =>
         (alSet st.1 (pe.ip, pe.song) pe.ts,
          if epochMicro pe.ts - epochMicro last > 30000000
          then st.2 ++ [(⟨pe.ip, pe.song, toIsoZ pe.ts, pe.ua, pe.ts⟩ : NpEntry)]
          else st.2)
       | none => (alSet st.1 (pe.ip, pe.song) pe.ts,
          st.2 ++ [(⟨pe.ip, pe.song, toIsoZ pe.ts, pe.ua, pe.ts⟩ : NpEntry)])) := by
  unfold np1Step
  rw [h]


/-- C3 amended: for a heartbeat log holding exactly two lines for one
(remote_id, song) key, the candidate count is 2 when the gap exceeds 30
seconds and 1 otherwise; and such a run (primary log present but empty)
produces exactly 2 confirmed plays when additionally the two timestamps
fall in different minutes.  (When a 45-second gap stays inside one minute,
dedup collapses the confirmed count to 1, as C3_counterexample shows.) -/
theorem C3_amended (l1 l2 ip song ua1 ua2 : String) (ts1 ts2 : DateTime)
    (h1 : npParseLine l1 = some ⟨ip, song, ua1, ts1⟩)
    (h2 : npParseLine l2 = some ⟨ip, song, ua2, ts2⟩) :
    (np1Pass [l1, l2]).length =
      (if epochMicro ts2 - epochMicro ts1 > 30000000 then 2 else 1) ∧
    (∀ uaLib : Option (String → DeviceInfo),
      epochMicro ts2 - epochMicro ts1 > 30000000 →
      strTake (toIsoZ ts1) 16 ≠ strTake (toIsoZ ts2) 16 →
      (runPlays ⟨some [], some [l1, l2], none, none, uaLib, fun _ => none⟩).length = 2) := by
  have st1 : np1Step ([], []) l1
      = ([((ip, song), ts1)], [(⟨ip, song, toIsoZ ts1, ua1, ts1⟩ : NpEntry)]) := by
    rw [np1Step_parsed _ _ _ h1]
    rfl
  have st2 : np1Step ([((ip, song), ts1)], [(⟨ip, song, toIsoZ ts1, ua1, ts1⟩ : NpEntry)]) l2
      = ([((ip, song), ts2)],
         if epochMicro ts2 - epochMicro ts1 > 30000000 then
           [(⟨ip, song, toIsoZ ts1, ua1, ts1⟩ : NpEntry),
            (⟨ip, song, toIsoZ ts2, ua2, ts2⟩ : NpEntry)]
         else [(⟨ip, song, toIsoZ ts1, ua1, ts1⟩ : NpEntry)]) := by
    rw [np1Step_parsed _ _ _ h2]
    simp [alGet, alSet]
  have hpass : np1Pass [l1, l2] =
      if epochMicro ts2 - epochMicro ts1 > 30000000 then
        [(⟨ip, song, toIsoZ ts1, ua1, ts1⟩ : NpEntry),
         (⟨ip, song, toIsoZ ts2, ua2, ts2⟩ : NpEntry)]
      else [(⟨ip, song, toIsoZ ts1, ua1, ts1⟩ : NpEntry)] := by
    simp only [np1Pass, List.foldl_cons, List.foldl_nil, st1, st2]
  constructor
  · rw [hpass]
    split <;> rfl
  · intro uaLib hgap hmin
    have hpass2 : np1Pass [l1, l2] =
        [⟨ip, song, toIsoZ ts1, ua1, ts1⟩, ⟨ip, song, toIsoZ ts2, ua2, ts2⟩] := by
      rw [hpass, if_pos hgap]
    obtain ⟨hk1, p1, hp1⟩ :=
      addConfirmed_not_mem uaLib [] initState ip song (toIsoZ ts1) ua1 (by simp)
    have hnot2 : (ip, song, strTake (toIsoZ ts2) 16) ∉
        [(ip, song, strTake (toIsoZ ts1) 16)] := by
      simp only [List.mem_singleton, Prod.mk.injEq, not_and]
      intro _ _ hmineq
      exact hmin hmineq.symm
    obtain ⟨hk2, p2, hp2⟩ :=
      addConfirmed_not_mem uaLib [(ip, song, strTake (toIsoZ ts1) 16)]
        (addConfirmed uaLib [] initState ip song (toIsoZ ts1) ua1).2
        ip song (toIsoZ ts2) ua2 hnot2
    have hinit : initState.plays = ([] : List PlayRec) := rfl
    simp only [runPlays, pipelineState, nginxPass, List.foldl_nil, hinit,
      List.map_nil, hpass2, List.foldl_cons, npConfirmStep]
    rw [hk1]
    rw [hp2, hp1]
    simp [initState]

/-- C3 witness: two heartbeats 45 seconds apart across a minute boundary
give two candidates and two confirmed plays. -/
theorem C3_witness :
    (np1Pass ["1.2.3.4|2024-01-02T10:00:40Z|kokosnoed",
              "1.2.3.4|2024-01-02T10:01:25Z|kokosnoed"]).length = 2 ∧
    (runPlays ⟨some [], some ["1.2.3.4|2024-01-02T10:00:40Z|kokosnoed",
                              "1.2.3.4|2024-01-02T10:01:25Z|kokosnoed"],
               none, none, none, fun _ => none⟩).length = 2 := by
  have h := C3_amended "1.2.3.4|2024-01-02T10:00:40Z|kokosnoed"
    "1.2.3.4|2024-01-02T10:01:25Z|kokosnoed"
    "1.2.3.4" "som-en-kokosnoed" "" "" ⟨2024, 1, 2, 10, 0, 40, 0⟩ ⟨2024, 1, 2, 10, 1, 25, 0⟩
    (by decide) (by decide)
  exact ⟨h.1.trans (by decide), h.2 none (by decide) (by decide)⟩

/-- The Python max fold never returns a value smaller than any element. -/
theorem pyMaxFold_le (f : Int → Nat) :
    ∀ (ks : List Int) (k : Int), ∀ x ∈ k :: ks,
      f x ≤ f (ks.foldl (fun best y => if f y > f best then y else best) k) := by
  intro ks
  induction ks with
  | nil =>
    intro k x hx
    rw [List.mem_singleton.mp hx]
    exact Nat.le_refl _
  | cons a ks ih =>
    intro k x hx
    rw [List.foldl_cons]
    have hkk : f k ≤ f (if f a > f k then a else k) ∧
        f a ≤ f (if f a > f k then a else k) := by
      by_cases h : f a > f k <;> simp [h] <;> omega
    rcases List.mem_cons.mp hx with hx | hx
    · subst hx
      exact le_trans hkk.1 (ih _ _ (List.mem_cons_self _ _))
    · rcases List.mem_cons.mp hx with hx | hx
      · subst hx
        exact le_trans hkk.2 (ih _ _ (List.mem_cons_self _ _))
      · exact ih _ x (List.mem_cons_of_mem _ hx)

/-- The Python max fold returns the first element attaining the maximum:
everything before it in iteration order is strictly smaller. -/
theorem pyMaxFold_first (f : Int → Nat) :
    ∀ (ks : List Int) (k : Int),
      ∃ pre suf,
        k :: ks = pre ++ (ks.foldl (fun best y => if f y > f best then y else best) k) :: suf ∧
        ∀ p ∈ pre, f p < f (ks.foldl (fun best y => if f y > f best then y else best) k) := by
  intro ks
  induction ks with
  | nil =>
    intro k
    exact ⟨[], [], rfl, by simp⟩
  | cons a ks ih =>
    intro k
    rw [List.foldl_cons]
    by_cases h : f a > f k
    · rw [if_pos h]
      obtain ⟨pre, suf, hdec, hlt⟩ := ih a
      refine ⟨k :: pre, suf, by rw [List.cons_append, ← hdec], ?_⟩
      intro p hp
      rcases List.mem_cons.mp hp with hp | hp
      · subst hp
        exact lt_of_lt_of_le h (pyMaxFold_le f ks a a (List.mem_cons_self _ _))
      · exact hlt p hp
    · rw [if_neg h]
      obtain ⟨pre, suf, hdec, hlt⟩ := ih k
      cases pre with
      | nil =>
        simp only [List.nil_append] at hdec
        refine ⟨[], a :: ks, ?_, by simp⟩
        rw [List.nil_append]
        have hk := (List.cons.injEq _ _ _ _).mp hdec
        rw [← hk.1]
      | cons p pre =>
        have hk := (List.cons.injEq _ _ _ _).mp (by simpa using hdec)
        refine ⟨k :: a :: pre, suf, ?_, ?_⟩
        · rw [List.cons_append, List.cons_append, ← hk.2]
        · intro q hq
          rcases List.mem_cons.mp hq with hq | hq
          · subst hq
            exact hk.1 ▸ hlt p (List.mem_cons_self _ _)
          · rcases List.mem_cons.mp hq with hq | hq
            · subst hq
              have hak : f q ≤ f k := Nat.le_of_not_lt h
              exact lt_of_le_of_lt hak (hk.1 ▸ hlt p (List.mem_cons_self _ _))
            · exact hlt q (List.mem_cons_of_mem _ hq)

/-- In a dict (duplicate-free keys), a present pair is what lookup finds. -/
theorem alGet_of_mem_nodup {κ β : Type} [DecidableEq κ] :
    ∀ (l : List (κ × β)), (l.map Prod.fst).Nodup →
      ∀ k v, (k, v) ∈ l → alGet l k = some v := by
  intro l
  induction l with
  | nil => intro _ k v h; cases h
  | cons hd t ih =>
    intro hnd k v h
    rcases List.mem_cons.mp h with heq | hmem
    · rw [← heq]
      simp [alGet]
    · have hne : hd.1 ≠ k := by
        intro he
        have hkm : k ∈ t.map Prod.fst := List.mem_map_of_mem Prod.fst hmem
        rw [List.map_cons] at hnd
        exact (List.nodup_cons.mp hnd).1 (he ▸ hkm)
      have htl : (t.map Prod.fst).Nodup := by
        rw [List.map_cons] at hnd
        exact (List.nodup_cons.mp hnd).2
      cases hd with
      | mk k' v' =>
        simp only [alGet, if_neg hne]
        exact ih htl k v hmem

/-- C5 amended: for a non-empty hourly-activity table, peak_hour attains
the maximal count, and among tied buckets it is the first one in dict
insertion order, i.e. the hour first encountered while processing plays —
not the numerically smallest hour (see C5_counterexample). -/
theorem C5_amended (l : List (Int × Nat)) (hne : l ≠ [])
    (hnd : (l.map Prod.fst).Nodup) :
    (∃ preK sufK, l.map Prod.fst = preK ++ peakHour l :: sufK ∧
      ∀ k ∈ preK, alGetD l k 0 < alGetD l (peakHour l) 0) ∧
    (∀ kv ∈ l, kv.2 ≤ alGetD l (peakHour l) 0) := by
  cases l with
  | nil => exact absurd rfl hne
  | cons hd tl =>
    have hmap : (hd :: tl).map Prod.fst = hd.1 :: tl.map Prod.fst := List.map_cons _ _ _
    obtain ⟨pre, suf, hdec, hlt⟩ :=
      pyMaxFold_first (fun k => alGetD (hd :: tl) k 0) (tl.map Prod.fst) hd.1
    constructor
    · refine ⟨pre, suf, ?_, ?_⟩
      · rw [hmap]
        exact hdec
      · exact hlt
    · intro kv hkv
      have hg : alGet (hd :: tl) kv.1 = some kv.2 :=
        alGet_of_mem_nodup _ hnd kv.1 kv.2 (by simpa using hkv)
      have h2 : alGetD (hd :: tl) kv.1 0 = kv.2 := by simp [alGetD, hg]
      have h3 : kv.1 ∈ hd.1 :: tl.map Prod.fst := by
        rw [← hmap]
        exact List.mem_map_of_mem _ hkv
      have h4 := pyMaxFold_le (fun k => alGetD (hd :: tl) k 0) (tl.map Prod.fst) hd.1 kv.1 h3
      rw [← h2]
      exact h4

/-- C5 witness: the characterization at the two-bucket table built by
encountering hour 5 and then hour 3. -/
theorem C5_witness :
    (∃ preK sufK,
        ([((5 : Int), 1), ((3 : Int), 1)] : List (Int × Nat)).map Prod.fst
          = preK ++ peakHour [((5 : Int), 1), ((3 : Int), 1)] :: sufK ∧
        ∀ k ∈ preK, alGetD ([((5 : Int), 1), ((3 : Int), 1)] : List (Int × Nat)) k 0
          < alGetD ([((5 : Int), 1), ((3 : Int), 1)] : List (Int × Nat))
              (peakHour [((5 : Int), 1), ((3 : Int), 1)]) 0) ∧
    (∀ kv ∈ ([((5 : Int), 1), ((3 : Int), 1)] : List (Int × Nat)),
        kv.2 ≤ alGetD ([((5 : Int), 1), ((3 : Int), 1)] : List (Int × Nat))
            (peakHour [((5 : Int), 1), ((3 : Int), 1)]) 0) :=
  C5_amended [((5 : Int), 1), ((3 : Int), 1)] (by decide) (by decide)

/-- A qualifying primary-log record whose bracketed timestamp fails
day/Mon/Year:H:M:S parsing is still counted: the play is appended with the
raw string as its timestamp, the day counter is bumped at the raw string's
first 10 characters, and the hourly counter is bumped exactly when
characters 11..13 of the raw string parse as an int. -/
theorem C10_nginx_raw (uaLib : Option (String → DeviceInfo)) (st : RunState)
    (e : PrimaryEvent) (song : String)
    (hb : botMatch e.ua = false) (hm : e.method = "GET")
    (hs : e.status = 200 ∨ e.status = 206)
    (hsong : parse_song_name e.path = some song)
    (hart : pyContains song "-art" = false)
    (htime : strptimeNginx (splitFirstSpace e.time) = none) :
    (∃ p : PlayRec, (nginxStep uaLib st e).plays = st.plays ++ [p] ∧ p.t = e.time) ∧
    (nginxStep uaLib st e).per_day = bump st.per_day (strTake e.time 10) ∧
    (nginxStep uaLib st e).hourly_activity =
      (match pyInt (strSlice e.time 11 13) with
       | some h => bump st.hourly_activity h
       | none => st.hourly_activity) := by
  have hpt : parse_time e.time = e.time := by
    simp [parse_time, htime]
  have hstat : ¬ (e.method ≠ "GET" ∨ (e.status ≠ 200 ∧ e.status ≠ 206)) := by
    rcases hs with hs | hs <;> simp [hm, hs]
  dsimp only [nginxStep]
  rw [hb]
  simp only [Bool.false_eq_true, if_false]
  rw [if_neg hstat]
  rw [hsong]
  simp only [hart, Bool.false_eq_true, if_false, hpt]
  refine ⟨⟨⟨e.time, e.ip, song, strTake e.ua 120, (get_device_info uaLib e.ua).device,
            (get_device_info uaLib e.ua).browser, (get_device_info uaLib e.ua).os⟩,
           ?_, rfl⟩, ?_, ?_⟩ <;>
    by_cases hpv : (e.method = "GET" ∧ e.path = "/" ∧ e.status = 200) <;>
      cases hpy : pyInt (strSlice e.time 11 13) <;>
        simp [hpv, hpy]

/-- A heartbeat line whose timestamp fails fromisoformat parsing is
dropped entirely: the session state and candidates are unchanged. -/
theorem C10_np_drop (st : Np1State) (line : String)
    (h : fromisoformatNaiveUTC (pyStrip ((pySplit '|' (pyStrip line)).getD 1 "")) = none) :
    np1Step st line = st := by
  have hparse : npParseLine line = none := by
    dsimp only [npParseLine]
    repeat' split
    all_goals try rfl
    all_goals simp_all
  simp [np1Step, hparse]

/-- A track-log play event whose timestamp fails fromisoformat parsing is
dropped entirely. -/
theorem C10_track_drop (uaLib : Option (String → DeviceInfo))
    (ks : List (String × String × String) × RunState) (line : String)
    (hev : pyStrip ((pySplit '|' (pyStrip line)).getD 2 "") = "play")
    (h : fromisoformatNaiveUTC (pyStrip ((pySplit '|' (pyStrip line)).getD 1 "")) = none) :
    trackStep uaLib ks line = ks := by
  dsimp only [trackStep]
  repeat' split
  all_goals try rfl
  all_goals simp_all

/-- The batches actually sent are an initial segment of the planned
batches: nothing is requested after a break. -/
theorem geoBatches_reqs_prefix (service : List String → Option (List GeoResp)) :
    ∀ (bs : List (List String)) (c : GeoCache),
      ∃ rest, bs = (geoBatches service bs c).2 ++ rest := by
  intro bs
  induction bs with
  | nil => exact fun c => ⟨[], rfl⟩
  | cons b bs ih =>
    intro c
    cases hsb : service b with
    | none => exact ⟨bs, by simp [geoBatches, hsb]⟩
    | some rs =>
      obtain ⟨rest, hrest⟩ := ih (applyResults rs c)
      exact ⟨rest, by simp [geoBatches, hsb]; exact hrest⟩

/-- Every sent batch except possibly the last one succeeded: a failed
call immediately stops the loop. -/
theorem geoBatches_dropLast (service : List String → Option (List GeoResp)) :
    ∀ (bs : List (List String)) (c : GeoCache),
      ∀ b ∈ ((geoBatches service bs c).2).dropLast, (service b).isSome := by
  intro bs
  induction bs with
  | nil => intro c b hb; simp [geoBatches] at hb
  | cons b0 bs ih =>
    intro c b hb
    cases hsb : service b0 with
    | none => simp [geoBatches, hsb] at hb
    | some rs =>
      simp only [geoBatches, hsb] at hb
      rcases hq : (geoBatches service bs (applyResults rs c)).2 with _ | ⟨q, qs⟩
      · rw [hq] at hb
        simp at hb
      · rw [hq] at hb
        rw [List.dropLast_cons_of_ne_nil (by simp)] at hb
        rcases List.mem_cons.mp hb with hb | hb
        · rw [hb, hsb]; rfl
        · exact ih (applyResults rs c) b (by rw [hq]; exact hb)

/-- Dict assignment at one key leaves lookups of other keys unchanged. -/
theorem alGet_alSet_ne {κ β : Type} [DecidableEq κ] (k q : κ) (v : β) :
    ∀ c : List (κ × β), k ≠ q → alGet (alSet c k v) q = alGet c q := by
  intro c hne
  induction c with
  | nil => simp [alSet, alGet, hne]
  | cons hd t ih =>
    cases hd with
    | mk k' v' =>
      by_cases hk : k' = k
      · subst hk
        simp [alSet, alGet, hne]
      · simp only [alSet, if_neg hk]
        by_cases hq : k' = q
        · simp [alGet, hq]
        · simp [alGet, hq, ih]

/-- Merging a batch response whose query keys all differ from q leaves
q's cache entry unchanged. -/
theorem applyResults_preserve (q : String) :
    ∀ (rs : List GeoResp) (c : GeoCache),
      (∀ r ∈ rs, r.query.getD "" ≠ q) →
      alGet (applyResults rs c) q = alGet c q := by
  intro rs
  induction rs with
  | nil => intro c _; rfl
  | cons r rs ih =>
    intro c h
    have h1 : r.query.getD "" ≠ q := h r (List.mem_cons_self _ _)
    have h2 : ∀ r' ∈ rs, r'.query.getD "" ≠ q :=
      fun r' hr' => h r' (List.mem_cons_of_mem _ hr')
    have hstep : applyResults (r :: rs) c =
        applyResults rs (alSet c (r.query.getD "")
          ⟨r.country.getD "Ukendt", r.countryCode.getD ""⟩) := rfl
    rw [hstep, ih _ h2, alGet_alSet_ne _ _ _ _ h1]

/-- When the service echoes only queried identifiers and q is in no
batch, the whole batch loop leaves q's cache entry unchanged. -/
theorem geoBatches_preserve (service : List String → Option (List GeoResp)) (q : String) :
    ∀ (bs : List (List String)) (c : GeoCache),
      (∀ b ∈ bs, ∀ r ∈ (service b).getD [], r.query.getD "" ∈ b) →
      (∀ b ∈ bs, q ∉ b) →
      alGet (geoBatches service bs c).1 q = alGet c q := by
  intro bs
  induction bs with
  | nil => intro c _ _; rfl
  | cons b bs ih =>
    intro c hecho hnb
    cases hsb : service b with
    | none => simp [geoBatches, hsb]
    | some rs =>
      simp only [geoBatches, hsb]
      have hrs : ∀ r ∈ rs, r.query.getD "" ≠ q := by
        intro r hr he
        have : r.query.getD "" ∈ b := by
          have := hecho b (List.mem_cons_self _ _) r (by rw [hsb]; exact hr)
          exact this
        exact hnb b (List.mem_cons_self _ _) (he ▸ this)
      rw [ih (applyResults rs c)
            (fun b' hb' => hecho b' (List.mem_cons_of_mem _ hb'))
            (fun b' hb' => hnb b' (List.mem_cons_of_mem _ hb')),
          applyResults_preserve q rs c hrs]

/-- The private-marking loop only fills missing entries: an existing
entry is kept verbatim. -/
theorem markPrivate_preserve (q : String) (en : GeoEntry) :
    ∀ (ips : List String) (c : GeoCache),
      alGet c q = some en → alGet (markPrivate ips c) q = some en := by
  intro ips
  induction ips with
  | nil => intro c h; exact h
  | cons ip ips ih =>
    intro c h
    simp only [markPrivate, List.foldl_cons]
    by_cases hc : alGet c ip = none ∧ is_private_ip ip = true
    · have hne : ip ≠ q := by
        intro he
        rw [he, h] at hc
        exact Option.noConfusion hc.1
      refine ih _ ?_
      rw [if_pos hc, alGet_alSet_ne _ _ _ _ hne, h]
    · rw [if_neg hc]
      exact ih c h

/-- Every element of a batch comes from the chunked list. -/
theorem chunksAux_mem {α : Type} (x : α) :
    ∀ (f : Nat) (l : List α) (b : List α),
      b ∈ chunksAux f l → x ∈ b → x ∈ l := by
  intro f
  induction f with
  | zero => intro l b hb; simp [chunksAux] at hb
  | succ f ih =>
    intro l b hb hx
    cases l with
    | nil => simp [chunksAux] at hb
    | cons a l =>
      simp only [chunksAux] at hb
      rcases List.mem_cons.mp hb with hb | hb
      · subst hb
        rcases List.mem_cons.mp hx with hx | hx
        · exact hx ▸ List.mem_cons_self _ _
        · exact List.mem_cons_of_mem _ (List.mem_of_mem_take hx)
      · exact List.mem_cons_of_mem _ (List.mem_of_mem_drop (ih (l.drop 99) b hb hx))

/-- Membership in a stable insertion. -/
theorem mem_insSorted {α : Type} (le : α → α → Bool) (a x : α) :
    ∀ l : List α, x ∈ insSorted le a l ↔ x = a ∨ x ∈ l := by
  intro l
  induction l with
  | nil => simp [insSorted]
  | cons b bs ih =>
    by_cases hle : le a b
    · simp [insSorted, hle]
    · simp only [insSorted, if_neg hle, List.mem_cons, ih]
      tauto

/-- The stable sort is a permutation membership-wise. -/
theorem mem_sortByStable {α : Type} (le : α → α → Bool) (x : α) :
    ∀ l : List α, x ∈ sortByStable le l ↔ x ∈ l := by
  intro l
  induction l with
  | nil => simp [sortByStable]
  | cons a l ih =>
    simp only [sortByStable, List.foldr_cons, mem_insSorted, List.mem_cons]
    rw [← sortByStable]
    rw [ih]

/-- Any play of the recency-sorted truncated list whose IP has no cache
entry renders the unknown country and an empty code. -/
theorem recent_unresolved (cache : GeoCache) (plays : List PlayRec)
    (le : FinalPlay → FinalPlay → Bool) (n : Nat) :
    ∀ p ∈ (sortByStable le (plays.map (assignGeo cache))).take n,
      alGet cache p.ip = none → p.country = "Ukendt" ∧ p.cc = "" := by
  intro p hp hnone
  have hp1 : p ∈ sortByStable le (plays.map (assignGeo cache)) := List.mem_of_mem_take hp
  have hp2 : p ∈ plays.map (assignGeo cache) := (mem_sortByStable le p _).mp hp1
  obtain ⟨q, hq, hqe⟩ := List.mem_map.mp hp2
  subst hqe
  simp only [assignGeo] at hnone ⊢
  rw [hnone]
  exact ⟨rfl, rfl⟩


/-- Dict assignment makes the assigned key resolve to the new value. -/
theorem alGet_alSet_self {κ β : Type} [DecidableEq κ] (k : κ) (v : β) :
    ∀ c : List (κ × β), alGet (alSet c k v) k = some v := by
  intro c
  induction c with
  | nil => simp [alSet, alGet]
  | cons hd t ih =>
    cases hd with
    | mk k' v' =>
      by_cases hk : k' = k
      · subst hk
        simp [alSet, alGet]
      · simp [alSet, alGet, hk, ih]

/-- Dict assignment never removes a key: presence is preserved. -/
theorem alSet_presence {κ β : Type} [DecidableEq κ] (k q : κ) (v : β)
    (c : List (κ × β)) (h : ∃ en, alGet c q = some en) :
    ∃ en, alGet (alSet c k v) q = some en := by
  by_cases hk : k = q
  · subst hk
    exact ⟨v, alGet_alSet_self k v c⟩
  · obtain ⟨en, hen⟩ := h
    exact ⟨en, by rw [alGet_alSet_ne _ _ _ _ hk, hen]⟩

/-- Merging a batch response never removes a cache key. -/
theorem applyResults_presence (q : String) :
    ∀ (rs : List GeoResp) (c : GeoCache),
      (∃ en, alGet c q = some en) →
      ∃ en, alGet (applyResults rs c) q = some en := by
  intro rs
  induction rs with
  | nil => intro c h; exact h
  | cons r rs ih =>
    intro c h
    have hstep : applyResults (r :: rs) c =
        applyResults rs (alSet c (r.query.getD "")
          ⟨r.country.getD "Ukendt", r.countryCode.getD ""⟩) := rfl
    rw [hstep]
    exact ih _ (alSet_presence _ q _ c h)

/-- Every query key of a merged batch response has an entry afterwards. -/
theorem applyResults_resolves (q : String) :
    ∀ (rs : List GeoResp) (c : GeoCache) (r : GeoResp),
      r ∈ rs → r.query.getD "" = q →
      ∃ en, alGet (applyResults rs c) q = some en := by
  intro rs
  induction rs with
  | nil => intro c r hr; cases hr
  | cons r0 rs ih =>
    intro c r hr hq
    have hstep : applyResults (r0 :: rs) c =
        applyResults rs (alSet c (r0.query.getD "")
          ⟨r0.country.getD "Ukendt", r0.countryCode.getD ""⟩) := rfl
    rcases List.mem_cons.mp hr with hr | hr
    · subst hr
      rw [hstep]
      refine applyResults_presence q rs _ ?_
      rw [← hq]
      exact ⟨_, alGet_alSet_self _ _ c⟩
    · rw [hstep]
      exact ih _ r hr hq

/-- The batch loop never removes a cache key. -/
theorem geoBatches_presence (service : List String → Option (List GeoResp)) (q : String) :
    ∀ (bs : List (List String)) (c : GeoCache),
      (∃ en, alGet c q = some en) →
      ∃ en, alGet (geoBatches service bs c).1 q = some en := by
  intro bs
  induction bs with
  | nil => intro c h; exact h
  | cons b bs ih =>
    intro c h
    cases hsb : service b with
    | none => simpa [geoBatches, hsb] using h
    | some rs =>
      simp only [geoBatches, hsb]
      exact ih _ (applyResults_presence q rs c h)

/-- Every identifier answered by a successful batch call of the loop has
an entry in the cache the loop returns. -/
theorem geoBatches_resolves (service : List String → Option (List GeoResp)) :
    ∀ (bs : List (List String)) (c : GeoCache) (b : List String),
      b ∈ (geoBatches service bs c).2 →
      ∀ rs, service b = some rs →
      ∀ r ∈ rs, ∃ en, alGet (geoBatches service bs c).1 (r.query.getD "") = some en := by
  intro bs
  induction bs with
  | nil => intro c b hb; simp [geoBatches] at hb
  | cons b0 bs ih =>
    intro c b hb rs hrs r hr
    cases hsb : service b0 with
    | none =>
      simp only [geoBatches, hsb, List.mem_singleton] at hb
      subst hb
      rw [hsb] at hrs
      exact Option.noConfusion hrs
    | some rs0 =>
      simp only [geoBatches, hsb, List.mem_cons] at hb ⊢
      rcases hb with hb | hb
      · subst hb
        rw [hsb] at hrs
        have hrs0 : rs = rs0 := (Option.some.inj hrs).symm
        subst hrs0
        exact geoBatches_presence service _ bs _
          (applyResults_resolves _ rs c r hr rfl)
      · exact ih _ b hb rs hrs r hr

/-- The private-marking loop never removes a cache key. -/
theorem markPrivate_presence (q : String) (ips : List String) (c : GeoCache)
    (h : ∃ en, alGet c q = some en) :
    ∃ en, alGet (markPrivate ips c) q = some en := by
  obtain ⟨en, hen⟩ := h
  exact ⟨en, markPrivate_preserve q en ips c hen⟩

/-- Bumping a counter key by n raises exactly that key by n. -/
theorem bumpBy_getD_self {κ : Type} [DecidableEq κ] (k : κ) (n : Nat) :
    ∀ pc : List (κ × Nat), alGetD (bumpBy pc k n) k 0 = alGetD pc k 0 + n := by
  intro pc
  induction pc with
  | nil => simp [bumpBy, alGetD, alGet]
  | cons hd t ih =>
    cases hd with
    | mk k' v =>
      by_cases hk : k' = k
      · subst hk
        simp [bumpBy, alGetD, alGet]
      · simp [bumpBy, alGetD, alGet, hk] at ih ⊢
        exact ih

/-- Bumping a counter never decreases any key. -/
theorem bumpBy_getD_le {κ : Type} [DecidableEq κ] (k q : κ) (n : Nat) :
    ∀ pc : List (κ × Nat), alGetD pc q 0 ≤ alGetD (bumpBy pc k n) q 0 := by
  intro pc
  induction pc with
  | nil => simp [bumpBy, alGetD, alGet]
  | cons hd t ih =>
    cases hd with
    | mk k' v =>
      by_cases hq : k' = q
      · subst hq
        by_cases hk2 : k' = k
        · subst hk2
          simp [bumpBy, alGetD, alGet]
        · simp [bumpBy, alGetD, alGet, hk2]
      · by_cases hk2 : k' = k
        · subst hk2
          simp [bumpBy, alGetD, alGet, hq]
        · simp only [bumpBy, if_neg hk2, alGetD, alGet, if_neg hq]
          exact ih

/-- The per-country accumulation never decreases any bucket. -/
theorem perCountryFold_mono (cache : GeoCache) (q : String) :
    ∀ (l : List (String × Nat)) (pc : List (String × Nat)),
      alGetD pc q 0 ≤
        alGetD (l.foldl (fun pc kv =>
          bumpBy pc (((alGet cache kv.1).map GeoEntry.country).getD "Ukendt") kv.2) pc) q 0 := by
  intro l
  induction l with
  | nil => intro pc; exact Nat.le_refl _
  | cons kv l ih =>
    intro pc
    rw [List.foldl_cons]
    exact Nat.le_trans (bumpBy_getD_le _ q kv.2 pc) (ih _)

/-- A listener with no cache entry contributes its whole play count to the
'Ukendt' bucket of the per-country accumulator. -/
theorem perCountryFold_unresolved (cache : GeoCache) :
    ∀ (l : List (String × Nat)) (pc : List (String × Nat)) (ip : String) (cnt : Nat),
      (ip, cnt) ∈ l → alGet cache ip = none →
      cnt ≤ alGetD (l.foldl (fun pc kv =>
        bumpBy pc (((alGet cache kv.1).map GeoEntry.country).getD "Ukendt") kv.2) pc) "Ukendt" 0 := by
  intro l
  induction l with
  | nil => intro pc ip cnt h; cases h
  | cons kv l ih =>
    intro pc ip cnt hmem hnone
    rw [List.foldl_cons]
    rcases List.mem_cons.mp hmem with hmem | hmem
    · subst hmem
      have hcountry : ((alGet cache (ip, cnt).1).map GeoEntry.country).getD "Ukendt"
          = "Ukendt" := by
        simp [hnone]
      refine Nat.le_trans ?_ (perCountryFold_mono cache "Ukendt" l _)
      rw [hcountry, bumpBy_getD_self]
      exact Nat.le_add_left cnt _
    · exact ih _ ip cnt hmem hnone
/-- C7 amended: for any run with a primary log, against a geolocation
service that echoes only queried identifiers: the run always produces a
report and writes the cache (a transport failure never crashes it); the
batches sent are an initial segment of the planned batches and every sent
batch except possibly the last succeeded (a failure aborts all remaining
batches); entries already present in the loaded cache are kept verbatim;
every identifier resolved by a successful batch call earlier in the run
keeps an entry in the final cache; the per-country table of the report is
the truncated sort of the accumulator in which every unresolved listener's
plays are counted under 'Ukendt'; and every play record whose identifier
stays unresolved renders country 'Ukendt' with an empty code.  (In top_ips
an unresolved identifier renders '?' rather than 'Ukendt', as
C7_counterexample shows.) -/
theorem C7_amended (i : Inputs) (evs : List PrimaryEvent)
    (hp : i.primaryLog = some evs)
    (hecho : ∀ b : List String, ∀ r ∈ (i.geoService b).getD [], r.query.getD "" ∈ b) :
    ∃ rep c1,
      (mainEffects i).report = some rep ∧
      (mainEffects i).cacheWritten = some c1 ∧
      (∃ rest, chunks100 (newIps
          (unionList (pipelineState i.uaLib evs i.npLog i.trackLog).2.all_ips
            (pipelineState i.uaLib evs i.npLog i.trackLog).2.unique_page_ips)
          (i.geoCacheFile.getD []))
        = (mainEffects i).geoRequests ++ rest) ∧
      (∀ b ∈ (mainEffects i).geoRequests.dropLast, (i.geoService b).isSome) ∧
      (∀ q en, alGet (i.geoCacheFile.getD []) q = some en → alGet c1 q = some en) ∧
      (∀ b ∈ (mainEffects i).geoRequests, ∀ rs, i.geoService b = some rs →
        ∀ r ∈ rs, ∃ en, alGet c1 (r.query.getD "") = some en) ∧
      rep.per_country = (sortByStable (fun a b => decide (b.2 ≤ a.2))
        ((pipelineState i.uaLib evs i.npLog i.trackLog).2.per_ip.foldl
          (fun pc kv =>
            bumpBy pc (((alGet c1 kv.1).map GeoEntry.country).getD "Ukendt") kv.2)
          [])).take 15 ∧
      (∀ ip cnt, (ip, cnt) ∈ (pipelineState i.uaLib evs i.npLog i.trackLog).2.per_ip →
        alGet c1 ip = none →
        cnt ≤ alGetD ((pipelineState i.uaLib evs i.npLog i.trackLog).2.per_ip.foldl
          (fun pc kv =>
            bumpBy pc (((alGet c1 kv.1).map GeoEntry.country).getD "Ukendt") kv.2)
          []) "Ukendt" 0) ∧
      (∀ p ∈ rep.recent_plays, alGet c1 p.ip = none →
        p.country = "Ukendt" ∧ p.cc = "") := by
  set st := (pipelineState i.uaLib evs i.npLog i.trackLog).2 with hst
  set cache0 := i.geoCacheFile.getD [] with hcache0
  set ips := unionList st.all_ips st.unique_page_ips with hips
  set geo := lookup_countries i.geoService ips cache0 with hgeo
  have hmain : mainEffects i =
      ⟨some (buildReport st geo.1), some geo.1, geo.2, true⟩ := by
    simp only [mainEffects, hp]
  have hrecent : (buildReport st geo.1).recent_plays =
      (sortByStable (fun a b => decide (b.t ≤ a.t))
        (st.plays.map (assignGeo geo.1))).take 200 := rfl
  refine ⟨buildReport st geo.1, geo.1, by rw [hmain], by rw [hmain],
          ?_, ?_, ?_, ?_, rfl, ?_, ?_⟩
  · rw [hmain]
    by_cases hnew : newIps ips cache0 = []
    · refine ⟨[], ?_⟩
      rw [hnew]
      have : geo.2 = [] := by rw [hgeo, lookup_countries, if_pos hnew]
      rw [this]
      rfl
    · have : geo.2 = (geoBatches i.geoService (chunks100 (newIps ips cache0)) cache0).2 := by
        rw [hgeo, lookup_countries, if_neg hnew]
      rw [this]
      exact geoBatches_reqs_prefix i.geoService (chunks100 (newIps ips cache0)) cache0
  · rw [hmain]
    by_cases hnew : newIps ips cache0 = []
    · have : geo.2 = [] := by rw [hgeo, lookup_countries, if_pos hnew]
      rw [this]
      intro b hb
      simp at hb
    · have : geo.2 = (geoBatches i.geoService (chunks100 (newIps ips cache0)) cache0).2 := by
        rw [hgeo, lookup_countries, if_neg hnew]
      rw [this]
      exact geoBatches_dropLast i.geoService (chunks100 (newIps ips cache0)) cache0
  · intro q en hq
    by_cases hnew : newIps ips cache0 = []
    · have : geo.1 = cache0 := by rw [hgeo, lookup_countries, if_pos hnew]
      rw [this]
      exact hq
    · have hg1 : geo.1 = markPrivate ips
          (geoBatches i.geoService (chunks100 (newIps ips cache0)) cache0).1 := by
        rw [hgeo, lookup_countries, if_neg hnew]
      have hnotin : ∀ b ∈ chunks100 (newIps ips cache0), q ∉ b := by
        intro b hb hqb
        have hmem : q ∈ newIps ips cache0 :=
          chunksAux_mem q (newIps ips cache0).length (newIps ips cache0) b hb hqb
        have := (List.mem_filter.mp hmem).2
        simp only [hq] at this
        simp at this
      have hpres : alGet (geoBatches i.geoService (chunks100 (newIps ips cache0)) cache0).1 q
          = alGet cache0 q := by
        refine geoBatches_preserve i.geoService q _ cache0 ?_ hnotin
        intro b _ r hr
        exact hecho b r hr
      rw [hg1]
      exact markPrivate_preserve q en ips _ (by rw [hpres]; exact hq)
  · intro b hb rs hrs r hr
    rw [hmain] at hb
    by_cases hnew : newIps ips cache0 = []
    · have : geo.2 = [] := by rw [hgeo, lookup_countries, if_pos hnew]
      rw [this] at hb
      cases hb
    · have hg2 : geo.2 = (geoBatches i.geoService (chunks100 (newIps ips cache0)) cache0).2 := by
        rw [hgeo, lookup_countries, if_neg hnew]
      have hg1 : geo.1 = markPrivate ips
          (geoBatches i.geoService (chunks100 (newIps ips cache0)) cache0).1 := by
        rw [hgeo, lookup_countries, if_neg hnew]
      rw [hg2] at hb
      rw [hg1]
      exact markPrivate_presence (r.query.getD "") ips _
        (geoBatches_resolves i.geoService (chunks100 (newIps ips cache0)) cache0
          b hb rs hrs r hr)
  · intro ip cnt hmem hnone
    exact perCountryFold_unresolved geo.1 st.per_ip [] ip cnt hmem hnone
  · intro p hpp hnone
    rw [hrecent] at hpp
    exact recent_unresolved geo.1 st.plays _ 200 p hpp hnone

/-- C7 witness: the amended claim at the concrete run with one public-IP
play and an always-failing transport. -/
theorem C7_witness :
    ∃ rep c1,
      (mainEffects inputsPub).report = some rep ∧
      (mainEffects inputsPub).cacheWritten = some c1 ∧
      (∃ rest, chunks100 (newIps
          (unionList (pipelineState inputsPub.uaLib [evDup1] inputsPub.npLog inputsPub.trackLog).2.all_ips
            (pipelineState inputsPub.uaLib [evDup1] inputsPub.npLog inputsPub.trackLog).2.unique_page_ips)
          (inputsPub.geoCacheFile.getD []))
        = (mainEffects inputsPub).geoRequests ++ rest) ∧
      (∀ b ∈ (mainEffects inputsPub).geoRequests.dropLast, (inputsPub.geoService b).isSome) ∧
      (∀ q en, alGet (inputsPub.geoCacheFile.getD []) q = some en → alGet c1 q = some en) ∧
      (∀ b ∈ (mainEffects inputsPub).geoRequests, ∀ rs, inputsPub.geoService b = some rs →
        ∀ r ∈ rs, ∃ en, alGet c1 (r.query.getD "") = some en) ∧
      rep.per_country = (sortByStable (fun a b => decide (b.2 ≤ a.2))
        ((pipelineState inputsPub.uaLib [evDup1] inputsPub.npLog inputsPub.trackLog).2.per_ip.foldl
          (fun pc kv =>
            bumpBy pc (((alGet c1 kv.1).map GeoEntry.country).getD "Ukendt") kv.2)
          [])).take 15 ∧
      (∀ ip cnt,
        (ip, cnt) ∈ (pipelineState inputsPub.uaLib [evDup1] inputsPub.npLog inputsPub.trackLog).2.per_ip →
        alGet c1 ip = none →
        cnt ≤ alGetD ((pipelineState inputsPub.uaLib [evDup1] inputsPub.npLog inputsPub.trackLog).2.per_ip.foldl
          (fun pc kv =>
            bumpBy pc (((alGet c1 kv.1).map GeoEntry.country).getD "Ukendt") kv.2)
          []) "Ukendt" 0) ∧
      (∀ p ∈ rep.recent_plays, alGet c1 p.ip = none →
        p.country = "Ukendt" ∧ p.cc = "") :=
  C7_amended inputsPub [evDup1] rfl (fun b r hr => by simp [inputsPub] at hr)

/-- C10 amended: a qualifying primary-log line whose bracketed timestamp
fails day/Mon/Year:H:M:S parsing does not drop the line — the play is
counted with the raw unparsed string stored as its timestamp, its day key
is the string's first 10 characters, and its hourly contribution is
attempted on characters 11..13 of the raw string, so it is skipped exactly
when they do not parse as an int (for day/Mon/Year-shaped strings those
characters hold a colon, but C10_counterexample shows other raw strings do
land in an hourly bucket); by contrast, heartbeat and track-log lines with
malformed timestamps are dropped entirely. -/
theorem C10_amended :
    (∀ (uaLib : Option (String → DeviceInfo)) (st : RunState)
        (e : PrimaryEvent) (song : String),
      botMatch e.ua = false → e.method = "GET" →
      (e.status = 200 ∨ e.status = 206) →
      parse_song_name e.path = some song → pyContains song "-art" = false →
      strptimeNginx (splitFirstSpace e.time) = none →
      (∃ p : PlayRec, (nginxStep uaLib st e).plays = st.plays ++ [p] ∧ p.t = e.time) ∧
      (nginxStep uaLib st e).per_day = bump st.per_day (strTake e.time 10) ∧
      (nginxStep uaLib st e).hourly_activity =
        (match pyInt (strSlice e.time 11 13) with
         | some h => bump st.hourly_activity h
         | none => st.hourly_activity)) ∧
    (∀ (st : Np1State) (line : String),
      fromisoformatNaiveUTC (pyStrip ((pySplit '|' (pyStrip line)).getD 1 "")) = none →
      np1Step st line = st) ∧
    (∀ (uaLib : Option (String → DeviceInfo))
        (ks : List (String × String × String) × RunState) (line : String),
      pyStrip ((pySplit '|' (pyStrip line)).getD 2 "") = "play" →
      fromisoformatNaiveUTC (pyStrip ((pySplit '|' (pyStrip line)).getD 1 "")) = none →
      trackStep uaLib ks line = ks) :=
  ⟨fun uaLib st e song hb hm hs hsong hart htime =>
    C10_nginx_raw uaLib st e song hb hm hs hsong hart htime,
   fun st line h => C10_np_drop st line h,
   fun uaLib ks line hev h => C10_track_drop uaLib ks line hev h⟩

/-- C10 witness: the three parts at concrete inputs — the malformed-time
play record, a heartbeat line with an unparsable timestamp, and a track
play event with an unparsable timestamp. -/
theorem C10_witness :
    ((∃ p : PlayRec, (nginxStep none initState evBadTime).plays = initState.plays ++ [p] ∧
        p.t = evBadTime.time) ∧
     (nginxStep none initState evBadTime).per_day =
        bump initState.per_day (strTake evBadTime.time 10) ∧
     (nginxStep none initState evBadTime).hourly_activity =
        (match pyInt (strSlice evBadTime.time 11 13) with
         | some h => bump initState.hourly_activity h
         | none => initState.hourly_activity)) ∧
    np1Step ([], []) "1.2.3.4|garbage-timestamp|kokosnoed" = ([], []) ∧
    trackStep none ([], initState) "1.2.3.4|garbage-timestamp|play|kokosnoed|10|agent"
      = ([], initState) :=
  ⟨C10_amended.1 none initState evBadTime "brormand" (by decide) rfl (Or.inl rfl)
      (by decide) (by decide) (by decide),
   C10_amended.2.1 ([], []) "1.2.3.4|garbage-timestamp|kokosnoed" (by decide),
   C10_amended.2.2 none ([], initState)
      "1.2.3.4|garbage-timestamp|play|kokosnoed|10|agent" (by decide) (by decide)⟩
